import Mathlib

/-!
Formal model of the Crude_Scheduler_IDLETANK repository.

The development embeds the two engines of the repository in Lean:

* the allocation solver of solver.py (vessel-combination grid search,
  iterative ratio correction, top-level exception handling), and
* the time-stepped tank simulator of scheduler.py (tank state machine,
  feeding and consumption, fill execution, promotion pipeline, state
  history replay).

Volumes and times are rational numbers (Python floats are exact in all the
scenarios of interest); times are hours since simulation start.  Reporting
only data (CSV rows, message strings, snapshot tables) is not modelled;
event rows are kept as (time, event code, tank) triples because several
claims are about the sequence of logged events.
-/

namespace CrudeSched

/-! ## Solver: vessel-combination search (solver.py, lines 112-180) -/

/-- One multiplier assignment over the seven vessel classes, fields listed in
the insertion order of the combination dict built at solver.py line 139. -/
structure Combo where
  ulcc : ℚ
  vlcc : ℚ
  suezmax : ℚ
  aframax : ℚ
  panamax : ℚ
  handymax : ℚ
  handySize : ℚ
deriving DecidableEq, Repr

/-- Values of the combination dict, in insertion order. -/
def Combo.vals (c : Combo) : List ℚ :=
  [c.ulcc, c.vlcc, c.suezmax, c.aframax, c.panamax, c.handymax, c.handySize]

/-- Keys of the combination dict, in insertion order. -/
def vesselOrder : List String :=
  ["ulcc", "vlcc", "suezmax", "aframax", "panamax", "handymax", "handy_size"]

/-- Multiplier grid for ulcc (solver.py line 118). -/
def multUlcc : List ℚ := [0, 1, 2]

/-- Multiplier grid for vlcc. -/
def multVlcc : List ℚ := [0, 1, 2, 3]

/-- Multiplier grid for suezmax. -/
def multSuez : List ℚ := [0, 1/2, 1, 3/2, 2]

/-- Multiplier grid for aframax. -/
def multAfra : List ℚ := [0, 1/4, 1/2, 3/4, 1, 5/4]

/-- Multiplier grid for panamax. -/
def multPana : List ℚ := [0, 1/4, 1/2, 3/4, 1]

/-- Multiplier grid for handymax. -/
def multHandymax : List ℚ := [0, 1/4, 1/2, 3/4, 1, 3/2]

/-- Multiplier grid for handy size. -/
def multHandySize : List ℚ := [0, 1, 2, 3, 4]

/-- The Cartesian product iterated by the seven nested loops of
solver.py lines 131-137, in iteration order (ulcc outermost,
handy size innermost). -/
def allCombos : List Combo :=
  multUlcc.flatMap fun u =>
    multVlcc.flatMap fun v =>
      multSuez.flatMap fun sz =>
        multAfra.flatMap fun af =>
          multPana.flatMap fun pa =>
            multHandymax.flatMap fun hm =>
              multHandySize.map fun hs =>
                { ulcc := u, vlcc := v, suezmax := sz, aframax := af,
                  panamax := pa, handymax := hm, handySize := hs }

/-- The cargo_volumes list of solver.py lines 153-157: one volume per vessel
class that is available (present in the vessels dict) and has a positive
multiplier.  A vessel class is an entry (name, capacity). -/
def cargoVolumes (vessels : List (String × ℚ)) (c : Combo) : List ℚ :=
  (vesselOrder.zip c.vals).filterMap fun nm =>
    match vessels.lookup nm.1 with
    | some cap => if (0 : ℚ) < nm.2 then some (cap * nm.2) else none
    | none => none

/-- Python abs(). -/
def pyAbs (x : ℚ) : ℚ := if x < 0 then -x else x

/-- Total absolute deviation between the combination's cargo-volume ratios and
the target ratios (solver.py lines 166-167). -/
def comboDeviation (vessels : List (String × ℚ)) (ratios : List ℚ) (c : Combo) : ℚ :=
  let vols := cargoVolumes vessels c
  let tot := vols.sum
  (((vols.map fun v => v / tot).zip ratios).map fun p => pyAbs (p.1 - p.2)).sum

/-- All the continue-guards of the search loop body (solver.py lines 149-172):
nonzero multiplier sum, as many used classes as crude types, nonzero total
volume, and deviation not below the 1e-6 epsilon. -/
def comboOk (vessels : List (String × ℚ)) (ratios : List ℚ) (c : Combo) : Bool :=
  decide (c.vals.sum ≠ 0 ∧
    (cargoVolumes vessels c).length = ratios.length ∧
    (cargoVolumes vessels c).sum ≠ 0 ∧
    ¬ comboDeviation vessels ratios c < 1/1000000)

/-- True when d is below the running best deviation (initially float inf,
modelled as none). -/
def devBelow (d : ℚ) : Option ℚ → Bool
  | none => true
  | some b => decide (d < b)

/-- One iteration of the search loop: keep the combination iff every guard
passes and its deviation is strictly below the best so far. -/
def comboStep (vessels : List (String × ℚ)) (ratios : List ℚ)
    (acc : Option Combo × Option ℚ) (c : Combo) : Option Combo × Option ℚ :=
  if comboOk vessels ratios c && devBelow (comboDeviation vessels ratios c) acc.2 then
    (some c, some (comboDeviation vessels ratios c))
  else acc

/-- The grid scan of CrudeMixOptimizer._find_optimal_vessel_combination over
an explicit list of candidate combinations. -/
def searchCombos (vessels : List (String × ℚ)) (ratios : List ℚ)
    (combos : List Combo) : Option Combo :=
  (combos.foldl (comboStep vessels ratios) (none, none)).1

/-- Model of CrudeMixOptimizer._find_optimal_vessel_combination. -/
def findOptimalVesselCombination (vessels : List (String × ℚ)) (ratios : List ℚ) :
    Option Combo :=
  searchCombos vessels ratios allCombos

/-- Specification of a search accumulator after processing a list of
combinations: none means no combination passed the guards; some c means c is
the first minimum-deviation passing combination of the processed list. -/
def GoodAcc (vessels : List (String × ℚ)) (ratios : List ℚ)
    (processed : List Combo) (acc : Option Combo × Option ℚ) : Prop :=
  (acc.1 = none → acc.2 = none ∧ ∀ x ∈ processed, comboOk vessels ratios x = false) ∧
  ∀ c, acc.1 = some c →
    acc.2 = some (comboDeviation vessels ratios c) ∧
    ∃ l₁ l₂, processed = l₁ ++ c :: l₂ ∧ comboOk vessels ratios c = true ∧
      (∀ x ∈ l₁, comboOk vessels ratios x = true →
        comboDeviation vessels ratios c < comboDeviation vessels ratios x) ∧
      (∀ x ∈ l₂, comboOk vessels ratios x = true →
        comboDeviation vessels ratios c ≤ comboDeviation vessels ratios x)

/-! ## Solver: vessel rotation fallback (solver.py, lines 532-547) -/

/-- Capacity-descending order used by the fallback sort at solver.py
line 544. -/
def capGE (a b : String × ℚ) : Prop := b.2 ≤ a.2

instance : DecidableRel capGE := fun a b => inferInstanceAs (Decidable (b.2 ≤ a.2))

instance : IsTotal (String × ℚ) capGE := ⟨fun a b => le_total b.2 a.2⟩

instance : IsTrans (String × ℚ) capGE := ⟨fun _ _ _ h h2 => le_trans h2 h⟩

/-- Model of the vessel_sequence construction in
CrudeMixOptimizer._generate_optimal_cargo_mix (solver.py lines 532-547):
walk the pattern, replicate each used class int(multiplier) times (once for
fractional multipliers at least 0.1); when the sequence comes out empty, fall
back to the head of the capacity-descending sort of the vessel classes. -/
def buildVesselSequence (vessels : List (String × ℚ)) (pat : Option Combo) : List String :=
  let seq : List String :=
    match pat with
    | none => []
    | some p =>
        (vesselOrder.zip p.vals).flatMap fun nm =>
          if (vessels.lookup nm.1).isSome ∧ (0 : ℚ) < nm.2 then
            if nm.2 ≥ 1 then List.replicate (Int.toNat ⌊nm.2⌋) nm.1
            else if nm.2 ≥ 1/10 then [nm.1] else []
          else []
  if seq = [] then
    match List.insertionSort capGE vessels with
    | [] => []
    | v :: _ => [v.1]
  else seq

/-! ## Solver: iterative cargo optimization (solver.py, lines 403-506) -/

/-- A generated cargo schedule, reduced to the fields the iteration loop
reads: crude name and cargo size of each cargo. -/
abbrev Sched := List (String × ℚ)

/-- Actual ratio of each crude in a schedule (solver.py lines 453-467):
per-crude total over grand total, 0 when the grand total is not positive. -/
def actualRatiosOf (names : List String) (sched : Sched) : List ℚ :=
  let tv := (sched.map fun c => c.2).sum
  names.map fun n =>
    if (0 : ℚ) < tv then ((sched.filter fun c => c.1 = n).map fun c => c.2).sum / tv else 0

/-- Maximum absolute deviation of actual from base ratios, folded from 0 as at
solver.py lines 461-471. -/
def maxDeviation (base actual : List ℚ) : ℚ :=
  ((base.zip actual).map fun p => |p.2 - p.1|).foldl max 0

/-- The pre-renormalization feedback correction of solver.py lines 488-494:
subtract 0.8 of the observed error from each current adjusted target and
clamp at the 0.001 floor. -/
def adjustRaw (current base actual : List ℚ) : List ℚ :=
  (current.zip (base.zip actual)).map fun t =>
    max (1/1000) (t.1 - 4/5 * (t.2.2 - t.2.1))

/-- The feedback correction of solver.py lines 488-501: the clamped damped
correction, renormalized so the targets sum to 1. -/
def adjustTargets (current base actual : List ℚ) : List ℚ :=
  (adjustRaw current base actual).map fun x => x / (adjustRaw current base actual).sum

/-- Best-schedule update of solver.py lines 475-477 (best deviation starts at
float inf, modelled as none). -/
def traceBest (best : Option (Sched × ℚ)) (x : Sched × ℚ) : Option (Sched × ℚ) :=
  match best with
  | none => some x
  | some b => if x.2 < b.2 then some x else some b

/-- Specification: best is the first entry of the list attaining the minimum
deviation (none only for the empty list). -/
def IsBestOf (best : Option (Sched × ℚ)) (l : List (Sched × ℚ)) : Prop :=
  (best = none → l = []) ∧
  ∀ b, best = some b → b ∈ l ∧ (∀ x ∈ l, b.2 ≤ x.2) ∧
    ∃ l₁ l₂, l = l₁ ++ b :: l₂ ∧ ∀ x ∈ l₁, b.2 < x.2

/-- The iteration loop of CrudeMixOptimizer._iterative_cargo_optimization
(solver.py lines 425-501).  The schedule generator gen abstracts
_generate_optimal_cargo_mix (the generated schedule depends on the current
vessel pattern and the iteration index); everything else follows the source:
recompute the pattern from the adjusted targets after the first iteration
(keeping the previous one when the search returns none), measure the actual
ratios against the true base ratios, update the best schedule, stop when the
maximum deviation is within the 0.001 tolerance, otherwise adjust the targets
(except after the last iteration) and loop.  The returned trace lists the
(schedule, measured max deviation) of each executed iteration. -/
def iterGo (gen : Option Combo → ℕ → Sched) (vessels : List (String × ℚ))
    (names : List String) (base : List ℚ) :
    ℕ → ℕ → List ℚ → Option Combo → Option (Sched × ℚ) → List (Sched × ℚ) →
    Option (Sched × ℚ) × List (Sched × ℚ)
  | 0, _, _, _, best, trace => (best, trace.reverse)
  | Nat.succ fuel, iteration, targets, pat, best, trace =>
    let pat1 := if iteration > 0 then
        match findOptimalVesselCombination vessels targets with
        | some np => some np
        | none => pat
      else pat
    let sched := gen pat1 iteration
    let actual := actualRatiosOf names sched
    let d := maxDeviation base actual
    let best1 := traceBest best (sched, d)
    let trace1 := (sched, d) :: trace
    if d ≤ 1/1000 then (best1, trace1.reverse)
    else if iteration < 9 then
      iterGo gen vessels names base fuel (iteration + 1)
        (adjustTargets targets base actual) pat1 best1 trace1
    else
      iterGo gen vessels names base fuel (iteration + 1) targets pat1 best1 trace1

/-- Model of _iterative_cargo_optimization: up to 10 iterations starting from
the true required ratios and the seed pattern. -/
def iterativeCargoOptimization (gen : Option Combo → ℕ → Sched)
    (vessels : List (String × ℚ)) (names : List String) (base : List ℚ)
    (pat0 : Option Combo) : Option (Sched × ℚ) × List (Sched × ℚ) :=
  iterGo gen vessels names base 10 0 base pat0 none []

/-! ## Solver: top-level exception handling (solver.py, lines 36-110 and
1055-1095) -/

/-- A parameter-dict value: a number or a string. -/
inductive PyVal
  | num (q : ℚ)
  | str (s : String)
deriving DecidableEq

/-- Parameter dictionary. -/
abbrev Params := List (String × PyVal)

/-- params.get(k, d). -/
def paramsGetD (p : Params) (k : String) (d : PyVal) : PyVal := (p.lookup k).getD d

/-- Python float(): numbers convert; a non-numeric string raises ValueError.
Numeric strings are represented as PyVal.num in this embedding. -/
def pyFloat : PyVal → Except String ℚ
  | .num q => .ok q
  | .str s => .error ("could not convert string to float: " ++ s)

/-- The dictionary returned by the solver entry points, reduced to the keys
the claims are about.  An Option none field models a key that is absent from
the returned dict. -/
structure SolverResult where
  success : Bool
  error : Option String
  cargoSchedule : Option Sched
  consoleAttached : Bool
deriving DecidableEq

/-- Model of CrudeMixOptimizer.solve_crude_mix_schedule (solver.py lines
36-110): the whole body (lines 39-105, abstracted as body) runs inside a
try; any exception is caught at lines 107-110 and turned into a dict with
success False and the error message, with no cargo_schedule key. -/
def solveCrudeMixSchedule (body : Params → Except String SolverResult) (p : Params) :
    SolverResult :=
  match body p with
  | .ok r => r
  | .error e =>
      { success := false, error := some e, cargoSchedule := none, consoleAttached := false }

/-- Model of the module entry point optimize_crude_mix_schedule (solver.py
lines 1055-1095): call solve_crude_mix_schedule inside a try whose handler
would return success False with an empty cargo_schedule; since the inner
method catches every exception itself (so the call never raises), the outer
handler is unreachable.  The entry point then attaches the console output to
the result. -/
def optimizeCrudeMixSchedule (body : Params → Except String SolverResult) (p : Params) :
    SolverResult :=
  let attempt : Except String SolverResult := Except.ok (solveCrudeMixSchedule body p)
  let result := match attempt with
    | .ok r => r
    | .error e =>
        { success := false, error := some e, cargoSchedule := some [], consoleAttached := false }
  { result with consoleAttached := true }

/-- The start of the solve_crude_mix_schedule body (solver.py line 40): the
first statement converts the processingRate parameter with float(), which
raises ValueError on a non-numeric string; the remainder of the body is
abstracted as rest. -/
def solveBodyHead (rest : ℚ → Params → Except String SolverResult) (p : Params) :
    Except String SolverResult := do
  let processingRate ← pyFloat (paramsGetD p "processingRate" (.num 50000))
  rest processingRate p

/-- Parameter dict whose processingRate is a non-numeric string, so the first
line of the solver body raises ValueError. -/
def cexParams : Params := [("processingRate", PyVal.str "abc")]

/-- Solver body that raises at its first float() conversion; the rest of the
pipeline (never reached on cexParams) reports success. -/
def cexBody : Params → Except String SolverResult :=
  solveBodyHead fun _ _ =>
    Except.ok { success := true, error := none, cargoSchedule := some [], consoleAttached := false }

/-- Solver body raising an arbitrary exception, for witnessing the exception
path of the entry point. -/
def errBody : Params → Except String SolverResult := fun _ => Except.error "boom"

/-- Combination picked for concrete solver instances: one vlcc and one
aframax cargo. -/
def witnessCombo : Combo := ⟨0, 1, 0, 1, 0, 0, 0⟩

/-! ## Simulator: data model (scheduler.py)

The reference scheduler imports scheduler_solver.py, which is not part of the
repository, so SOLVER_AVAILABLE is False and every use_solver_plan branch is
dead code; the embedding therefore follows the standard-scheduling paths.
Times are hours since simulation start (cfg start_dt maps to 0); the
configurations modelled are those without idle_tank_data entries, so the
simulated tank ids are 1..num_tanks.  Pure reporting state (CSV rows, message
strings, snapshot tables, feeding/filling event logs for reports) is not
modelled; the event log keeps (timestamp, event code, tank). -/

/-- Tank lifecycle states (scheduler.py lines 30-32). -/
inductive TState
  | READY | FEEDING | EMPTY | FILLING | FILLED | SETTLING | LAB | SUSPENDED | IDLE
deriving DecidableEq, Repr

export TState (READY FEEDING EMPTY FILLING FILLED SETTLING LAB SUSPENDED IDLE)

/-- A state-history entry: (timestamp, tank id, new state). -/
structure HE where
  t : ℚ
  tid : ℕ
  st : TState
deriving DecidableEq, Repr

/-- A logged event row, reduced to (timestamp, event code, tank). -/
structure Ev where
  t : ℚ
  code : String
  tank : Option ℕ
deriving DecidableEq, Repr

/-- One cargo dict (scheduler.py lines 573-587). -/
structure Cargo where
  vesselName : String
  cargoType : String
  crudeType : String
  berth : ℕ
  arrival : ℚ
  fillStart : ℚ
  volume : ℚ
  tanksNeeded : ℕ
  tanksStarted : ℕ
  tanksDone : ℕ
  dischargeStart : Option ℚ
  dischargeEnd : Option ℚ
  tankFills : List (ℕ × ℚ × ℚ × ℚ)
  dispatched : Bool
  nextFillAvailableAt : Option ℚ
deriving DecidableEq, Repr

/-- One berth record (scheduler.py lines 218-221); the current cargo is kept
by vessel name. -/
structure Berth where
  freeAt : ℚ
  currentCargo : Option String
deriving DecidableEq, Repr

/-- Configuration consumed by Simulator.__init__.  randFloats feeds
random.uniform draws and randChoices feeds random.choice, making the
scheduler's randomness an explicit input stream. -/
structure Cfg where
  numTanks : ℕ
  processingRate : ℚ
  usable : ℚ
  deadBottom : ℚ
  bufferVolume : ℚ
  settlingDays : ℚ
  labHours : ℚ
  dischargeRate : ℚ
  cargoDefs : List (String × ℚ)
  horizonDays : ℚ
  minReadyTanks : ℕ
  firstCargoMinReady : ℕ
  firstCargoMaxReady : ℕ
  snapshotIntervalMinutes : ℚ
  berthGapHoursMin : ℚ
  berthGapHoursMax : ℚ
  preDischargeDays : ℚ
  tankGapHours : ℚ
  tankFillGapHours : ℚ
  initialLevels : ℕ → Option ℚ
  randFloats : List ℚ
  randChoices : List ℕ

/-- Hourly processing rate (scheduler.py line 43). -/
def Cfg.rateHour (c : Cfg) : ℚ := c.processingRate / 24

/-- Unusable floor volume: dead bottom plus half the buffer (line 90). -/
def Cfg.unusable (c : Cfg) : ℚ := c.deadBottom + c.bufferVolume / 2

/-- Settling hours (line 117). -/
def Cfg.settleHours (c : Cfg) : ℚ := c.settlingDays * 24

/-- Fill delay hours (line 131). -/
def Cfg.fillDelayHours (c : Cfg) : ℚ := c.preDischargeDays * 24

/-- The simulated tank ids 1..num_tanks (all_tank_ids for configurations
without idle tank data). -/
def Cfg.tankIds (c : Cfg) : List ℕ := List.range' 1 c.numTanks

/-- The mutable simulator state. -/
structure Sim where
  state : ℕ → TState
  bbl : ℕ → ℚ
  active : ℕ
  readyForFillAt : ℕ → Option ℚ
  readyAt : ℕ → Option ℚ
  settleEndAt : ℕ → Option ℚ
  labStartAt : ℕ → Option ℚ
  feedStartVolume : ℕ → ℚ
  tankFeedStartTime : ℕ → Option ℚ
  tankCycleCounter : ℕ → ℕ
  tankMix : ℕ → List (String × ℚ)
  stateHistory : List HE
  events : List Ev
  noFeedAlertLogged : Bool
  firstCargoScheduled : Bool
  tankFilledFirst : List ℕ
  initiallyEmptyTanks : List ℕ
  dailyConsumption : ℕ → ℚ
  activeFills : List (String × ℕ × ℚ × ℚ × ℚ)
  cargos : List Cargo
  cargoRemainingVolume : String → ℚ
  berths : ℕ → Berth
  cargoCounter : String → ℕ
  initialState : ℕ → TState
  rng : List ℚ
  rngChoice : List ℕ

/-- Simulator._change_state (lines 329-332): set the state and append to the
history. -/
def changeState (tid : ℕ) (ns : TState) (when : ℚ) (s : Sim) : Sim :=
  { s with state := Function.update s.state tid ns,
           stateHistory := s.stateHistory ++ [{ t := when, tid := tid, st := ns }] }

/-- Simulator._log_event, reduced to appending the event row. -/
def logEvent (ts : ℚ) (code : String) (tid : Option ℕ) (s : Sim) : Sim :=
  { s with events := s.events ++ [{ t := ts, code := code, tank := tid }] }

/-- The replay loop of Simulator._get_state_at_time (lines 343-350): apply
history entries with timestamp at most ts in list order, stopping at the
first later entry (the history is assumed chronological). -/
def replayStates (tanks : List ℕ) (ts : ℚ) : (ℕ → TState) → List HE → (ℕ → TState)
  | states, [] => states
  | states, e :: rest =>
      if e.t ≤ ts then
        replayStates tanks ts
          (if e.tid ∈ tanks then Function.update states e.tid e.st else states) rest
      else states

/-- Simulator._get_state_at_time (lines 334-352). -/
def getStateAtTime (cfg : Cfg) (s : Sim) (ts : ℚ) : ℕ → TState :=
  replayStates cfg.tankIds ts s.initialState s.stateHistory

/-- Simulator._count_state (lines 395-396). -/
def countState (cfg : Cfg) (s : Sim) (target : TState) : ℕ :=
  (cfg.tankIds.filter fun i => s.state i == target).length

/-- Whether now is at least a ready_for_fill_at value (none models the
datetime.min initialisation). -/
def timeGE (now : ℚ) : Option ℚ → Bool
  | none => true
  | some r => decide (r ≤ now)

/-- Python "timer and timer <= now": a set timer that has elapsed. -/
def optElapsed (now : ℚ) : Option ℚ → Bool
  | some e => decide (e ≤ now)
  | none => false

/-- random.uniform draw: pop the next value of the stream (0 when the stream
is exhausted; the draws of interest never affect control flow then). -/
def popRand (s : Sim) : ℚ × Sim :=
  match s.rng with
  | [] => (0, s)
  | x :: rest => (x, { s with rng := rest })

/-- random.choice over a list of length n: pop the next choice index. -/
def popChoice (s : Sim) (n : ℕ) : ℕ × Sim :=
  match s.rngChoice with
  | [] => (0, s)
  | x :: rest => (x % n, { s with rngChoice := rest })

/-- Simulator._find_next_ready_sequential (lines 956-980): scan the sorted
tank ids starting just after start_from, wrapping around; when start_from is
not a tank id the scan starts at the beginning (python start_index -1). -/
def findNextReadySequential (cfg : Cfg) (s : Sim) (startFrom : ℕ) : Option ℕ :=
  let allReal := cfg.tankIds
  let base : ℕ :=
    match allReal.indexOf? startFrom with
    | some k => k + 1
    | none => 0
  (List.range allReal.length).findSome? fun j =>
    let tid := allReal.getD ((base + j) % allReal.length) 0
    if s.state tid = READY then some tid else none

/-- The wrap-around order starting just after startFrom, written from the
claim: the tanks after startFrom followed by those up to and including it. -/
def rotAfter (tanks : List ℕ) (startFrom : ℕ) : List ℕ :=
  match tanks.indexOf? startFrom with
  | some k => tanks.drop (k + 1) ++ tanks.take (k + 1)
  | none => tanks

/-- Simulator._predict_next_tank_empty (lines 402-418), in hours. -/
def predictNextTankEmpty (cfg : Cfg) (s : Sim) : Option ℚ :=
  if s.active = 0 ∨ ¬ s.state s.active = FEEDING then none
  else
    let hoursToEmpty := s.bbl s.active / cfg.rateHour
    let readyCount := (cfg.tankIds.filter fun i => s.state i == READY).length
    some (hoursToEmpty + readyCount * (cfg.usable / cfg.rateHour))

/-- Replace a cargo record by vessel name. -/
def updateCargo (s : Sim) (name : String) (f : Cargo → Cargo) : Sim :=
  { s with cargos := s.cargos.map fun c => if c.vesselName == name then f c else c }

/-- The cargo class iteration order of scheduler.py line 556. -/
def cargoTypeOrder : List String := ["VLCC", "SUEZ", "AFRA", "PANA", "HANDY"]

/-- One berth iteration of Simulator._schedule_cargos_standard (lines
524-596): when the berth is free, draw the random gap, gate the first cargo
on the 8-9 READY window and later cargos on the minimum READY count and the
predicted next empty minus 18 hours, then pick a random enabled cargo class
and berth it. -/
def scheduleBerthStandard (cfg : Cfg) (now : ℚ) (s : Sim) (berthId : ℕ) : Sim :=
  let berth := s.berths berthId
  if berth.currentCargo = none ∧ berth.freeAt ≤ now then
    let gs := popRand s
    let gap := gs.1
    let s := gs.2
    let readyCount := countState cfg s READY
    let cont : Option (ℚ × Sim) :=
      if ¬ s.firstCargoScheduled then
        if cfg.firstCargoMinReady ≤ readyCount ∧ readyCount ≤ cfg.firstCargoMaxReady then
          some (now + gap, { s with firstCargoScheduled := true })
        else none
      else if readyCount < cfg.minReadyTanks then none
      else
        match predictNextTankEmpty cfg s with
        | some hrs => some (max (now + hrs - 18) (berth.freeAt + gap), s)
        | none => some (berth.freeAt + gap, s)
    match cont with
    | none => s
    | some (arrival, s) =>
      let availableTypes := cargoTypeOrder.filter fun ct =>
        match cfg.cargoDefs.lookup ct with
        | some v => decide (0 < v)
        | none => false
      if availableTypes.isEmpty then s
      else
        let cs := popChoice s availableTypes.length
        let cargoType := availableTypes.getD cs.1 ""
        let s := cs.2
        let newCount := s.cargoCounter cargoType + 1
        let vesselName := cargoType ++ "-V" ++ toString newCount
        let volume := (cfg.cargoDefs.lookup cargoType).getD 0
        let cargo : Cargo := {
          vesselName := vesselName, cargoType := cargoType, crudeType := "",
          berth := berthId, arrival := arrival,
          fillStart := arrival + cfg.fillDelayHours, volume := volume,
          tanksNeeded := (⌈volume / cfg.usable⌉).toNat,
          tanksStarted := 0, tanksDone := 0, dischargeStart := none,
          dischargeEnd := none, tankFills := [], dispatched := false,
          nextFillAvailableAt := none }
        let s := { s with
          cargoCounter := Function.update s.cargoCounter cargoType newCount,
          cargos := s.cargos ++ [cargo],
          cargoRemainingVolume := Function.update s.cargoRemainingVolume vesselName volume,
          berths := (Function.update s.berths berthId
            { berth with currentCargo := some vesselName }) }
        logEvent arrival "ARRIVAL" none s
  else s

/-- Simulator._schedule_cargos_standard over the two berths, and
Simulator.schedule_cargos with the solver plan unavailable. -/
def scheduleCargos (cfg : Cfg) (now : ℚ) (s : Sim) : Sim :=
  scheduleBerthStandard cfg now (scheduleBerthStandard cfg now s 1) 2

/-- Target-tank selection of the standard branch of _maybe_start_fill (lines
899-918): first an initially empty tank in list order, else the lowest other
eligible id; the flag records which branch found the tank. -/
def startFillTankPick (cfg : Cfg) (now : ℚ) (s : Sim) : Option (ℕ × Bool) :=
  match s.initiallyEmptyTanks.find? (fun i =>
      (s.state i == EMPTY || s.state i == SUSPENDED || s.state i == IDLE)
        && timeGE now (s.readyForFillAt i)) with
  | some tid => some (tid, true)
  | none =>
    match cfg.tankIds.find? (fun i =>
        (s.state i == EMPTY || s.state i == SUSPENDED || s.state i == IDLE)
          && timeGE now (s.readyForFillAt i)
          && ! s.initiallyEmptyTanks.contains i) with
    | some tid => some (tid, false)
    | none => none

/-- The per-cargo body of Simulator._maybe_start_fill (lines 757-954),
standard branch. -/
def startFillForCargo (cfg : Cfg) (now : ℚ) (s : Sim) (vesselName : String) : Sim :=
  match s.cargos.find? (fun c => c.vesselName == vesselName) with
  | none => s
  | some cargo =>
    if ¬ ((1 : ℚ) < s.cargoRemainingVolume cargo.vesselName ∧
          (s.activeFills.lookup cargo.vesselName) = none) then s
    else if cargo.dischargeStart = none ∧ ¬ cargo.fillStart ≤ now then s
    else if (match cargo.nextFillAvailableAt with
             | some nf => decide (now < nf)
             | none => false : Bool) then s
    else
      match startFillTankPick cfg now s with
      | none => s
      | some (tid, fromInitial) =>
        let s := if fromInitial
          then { s with initiallyEmptyTanks := s.initiallyEmptyTanks.erase tid }
          else s
        let volumeToFill := min (s.cargoRemainingVolume cargo.vesselName) cfg.usable
        let s := updateCargo s cargo.vesselName fun c =>
          { c with tanksStarted := c.tanksStarted + 1,
                   dischargeStart := match c.dischargeStart with
                     | none => some now
                     | some d => some d }
        let endTime := now + volumeToFill / max cfg.dischargeRate (1/1000000)
        let s := { s with activeFills :=
          s.activeFills ++ [(cargo.vesselName, tid, now, endTime, volumeToFill)] }
        let es := if s.tankFilledFirst.contains tid then ("FILL_START", s)
          else ("FILL_START_FIRST", { s with tankFilledFirst := tid :: s.tankFilledFirst })
        let s := changeState tid FILLING now es.2
        logEvent now es.1 (some tid) s

/-- Simulator._maybe_start_fill (standard scheduling): process every cargo in
list order. -/
def maybeStartFill (cfg : Cfg) (now : ℚ) (s : Sim) : Sim :=
  (s.cargos.map fun c => c.vesselName).foldl (startFillForCargo cfg now) s

/-- The body of the _maybe_finish_fill loop (lines 602-739) for one active
fill whose end time has been reached: cap the added volume at usable
capacity, decide fullness on gross volume against gross capacity with the
100 bbl tolerance, transition FILLING to FILLED and SETTLING (arming settle,
lab and ready timers) when full or to SUSPENDED (arming the fill-gap timer)
when partial, update the cargo and its remaining volume, collect it when
discharged, drop the active fill, and start the cargo's next fill after the
tank-gap check. -/
def finishOneFill (cfg : Cfg) (now : ℚ)
    (acc : Sim × List String) (entry : String × ℕ × ℚ × ℚ × ℚ) : Sim × List String :=
  let s := acc.1
  let finished := acc.2
  let vesselName := entry.1
  let tid := entry.2.1
  let endTime := entry.2.2.2.1
  let volumeToFill := entry.2.2.2.2
  if ¬ endTime ≤ now then (s, finished)
  else
    let newVolume := s.bbl tid + volumeToFill
    let s := { s with bbl := Function.update s.bbl tid (min newVolume cfg.usable) }
    let isTankFull :=
      decide (cfg.usable + cfg.unusable - 100 ≤ min newVolume cfg.usable + cfg.unusable)
    let evName := if isTankFull then "FILL_FINAL_END" else "FILL_END"
    let s := if isTankFull then changeState tid FILLED endTime s else s
    let s := logEvent endTime evName (some tid) s
    let s :=
      if ¬ isTankFull then
        let s := changeState tid SUSPENDED endTime s
        { s with readyForFillAt := (Function.update s.readyForFillAt tid
            (some (endTime + cfg.tankFillGapHours))) }
      else
        let settleEnd := endTime + cfg.settleHours
        let s := { s with settleEndAt := Function.update s.settleEndAt tid (some settleEnd) }
        let s := changeState tid SETTLING endTime s
        let s := logEvent endTime "SETTLING_START" (some tid) s
        if 0 < cfg.labHours then
          { s with
              labStartAt := Function.update s.labStartAt tid (some settleEnd),
              readyAt := (Function.update s.readyAt tid
                (some (settleEnd + cfg.labHours))) }
        else
          { s with readyAt := Function.update s.readyAt tid (some settleEnd) }
    let s := updateCargo s vesselName fun c =>
      { c with tanksDone := c.tanksDone + 1,
               tankFills := c.tankFills ++
                 [(tid, endTime - volumeToFill / cfg.dischargeRate, endTime, volumeToFill)] }
    let s := { s with cargoRemainingVolume := (Function.update s.cargoRemainingVolume
        vesselName (s.cargoRemainingVolume vesselName - volumeToFill)) }
    let fs :=
      if s.cargoRemainingVolume vesselName ≤ (1 : ℚ) then
        (updateCargo s vesselName (fun c => { c with dischargeEnd := some endTime }),
         finished ++ [vesselName])
      else (s, finished)
    let s := fs.1
    let finished := fs.2
    let s := { s with activeFills := s.activeFills.filter fun e => ! e.1 == vesselName }
    let s :=
      if (1 : ℚ) < s.cargoRemainingVolume vesselName then
        let s := updateCargo s vesselName fun c =>
          { c with nextFillAvailableAt := some (endTime + cfg.tankFillGapHours) }
        let s := if 0 < cfg.tankFillGapHours
          then logEvent endTime "TANK_GAP_START" (some tid) s else s
        maybeStartFill cfg endTime s
      else s
    (s, finished)

/-- Simulator._maybe_finish_fill (lines 598-750): run the body over a
snapshot of the active fills, then free the berth of each discharged cargo at
its discharge end and re-invoke scheduling. -/
def maybeFinishFill (cfg : Cfg) (now : ℚ) (s : Sim) : Sim :=
  let fs := s.activeFills.foldl (finishOneFill cfg now) (s, [])
  fs.2.foldl (fun s vesselName =>
    match s.cargos.find? (fun c => c.vesselName == vesselName) with
    | none => s
    | some cargo =>
      let de := (cargo.dischargeEnd).getD now
      let berth := s.berths cargo.berth
      let s := { s with berths := (Function.update s.berths cargo.berth
          { berth with currentCargo := none, freeAt := de }) }
      let s := logEvent de "DISCHARGE_COMPLETE" none s
      scheduleCargos cfg de s) fs.1

/-- Simulator._ensure_feeding (lines 983-1017). -/
def ensureFeeding (cfg : Cfg) (now : ℚ) (s : Sim) : Sim :=
  if s.active ≠ 0 ∧ s.state s.active = FEEDING then s
  else
    match findNextReadySequential cfg s s.active with
    | some nxt =>
      let wasHalted := s.noFeedAlertLogged
      let s := { s with active := nxt }
      let s := changeState nxt FEEDING now s
      let s := { s with bbl := Function.update s.bbl nxt (min (s.bbl nxt) cfg.usable) }
      let s := { s with feedStartVolume := Function.update s.feedStartVolume nxt (s.bbl nxt) }
      let s := { s with tankFeedStartTime :=
        (Function.update s.tankFeedStartTime nxt (some now)) }
      let s := if wasHalted
        then { (logEvent now "PROCESSING_RESUME" none s) with noFeedAlertLogged := false }
        else s
      logEvent now "FEED_START" (some nxt) s
    | none =>
      if ¬ s.noFeedAlertLogged then
        { (logEvent now "NO_FEED_AVAILABLE" none s) with noFeedAlertLogged := true }
      else s

/-- Simulator._consume_hour (lines 1019-1140): fixed-rate linear drain when
the feeding tank outlasts the step, otherwise empty it at the exact computed
empty time, clear its mix, arm its fill-gap timer, log TANK_EMPTY (and
EMPTY_START when a gap is configured), switch to the next READY tank in
sequential order and drain it for the remainder of the step, or halt
processing when none exists.  Returns (processed volume, new state). -/
def consumeHour (cfg : Cfg) (now hourEnd : ℚ) (s : Sim) : ℚ × Sim :=
  if s.active = 0 ∨ ¬ s.state s.active = FEEDING then (0, s)
  else if cfg.rateHour ≤ 0 then (0, s)
  else
    let availableInTank := s.bbl s.active
    if availableInTank ≤ 0 then
      let tid := s.active
      let s := changeState tid EMPTY now s
      let s := { s with readyForFillAt := (Function.update s.readyForFillAt tid
          (some (now + cfg.tankGapHours))) }
      (0, logEvent now "FEED_ERROR" (some tid) s)
    else
      let timeToEmptyH := availableInTank / cfg.rateHour
      let hourLengthH := hourEnd - now
      if hourLengthH < timeToEmptyH then
        let take := cfg.rateHour * hourLengthH
        let s := { s with
          bbl := Function.update s.bbl s.active (max 0 (s.bbl s.active - take)),
          dailyConsumption := Function.update s.dailyConsumption s.active
            (s.dailyConsumption s.active + take) }
        (take, s)
      else
        let tEmpty := now + timeToEmptyH
        let take := availableInTank
        let emptiedTank := s.active
        let s := { s with
          bbl := Function.update s.bbl emptiedTank 0,
          dailyConsumption := Function.update s.dailyConsumption emptiedTank
            (s.dailyConsumption emptiedTank + take) }
        let s := { s with tankFilledFirst := s.tankFilledFirst.erase emptiedTank }
        let s := { s with tankMix := Function.update s.tankMix emptiedTank [] }
        let s := changeState emptiedTank EMPTY tEmpty s
        let s := { s with readyForFillAt := (Function.update s.readyForFillAt emptiedTank
            (some (tEmpty + cfg.tankGapHours))) }
        let s := logEvent tEmpty "TANK_EMPTY" (some emptiedTank) s
        let s := if 0 < cfg.tankGapHours
          then logEvent tEmpty "EMPTY_START" (some emptiedTank) s else s
        match findNextReadySequential cfg s emptiedTank with
        | some nxt =>
          let wasHalted := s.noFeedAlertLogged
          let s := { s with active := nxt }
          let s := { s with bbl := Function.update s.bbl nxt (min (s.bbl nxt) cfg.usable) }
          let s := { s with feedStartVolume :=
            (Function.update s.feedStartVolume nxt (s.bbl nxt)) }
          let s := { s with tankFeedStartTime :=
            (Function.update s.tankFeedStartTime nxt (some tEmpty)) }
          let s := if wasHalted
            then { (logEvent tEmpty "PROCESSING_RESUME" none s) with
                noFeedAlertLogged := false }
            else s
          let s := changeState nxt FEEDING tEmpty s
          let s := logEvent tEmpty "FEED_CHANGEOVER" (some nxt) s
          let remainingHour := hourLengthH - timeToEmptyH
          if 0 < remainingHour ∧ 0 < s.bbl nxt then
            let additional := min (cfg.rateHour * remainingHour) (s.bbl nxt)
            let s := { s with
              bbl := Function.update s.bbl nxt (s.bbl nxt - additional),
              dailyConsumption := Function.update s.dailyConsumption nxt
                (s.dailyConsumption nxt + additional) }
            (take + additional, s)
          else (take, s)
        | none =>
          let s := { s with active := 0 }
          if ¬ s.noFeedAlertLogged then
            (take, { (logEvent tEmpty "PROCESSING_HALT" none s) with
                noFeedAlertLogged := true })
          else (take, s)

/-- The per-tank body of Simulator._promote_ready_tanks (lines 1151-1227):
the SETTLING and LAB checks are on one if/elif chain, so a tank is promoted
at most once per pass. -/
def promoteTank (cfg : Cfg) (now : ℚ) (s : Sim) (i : ℕ) : Sim :=
  if s.state i = SETTLING ∧ optElapsed now (s.settleEndAt i) then
    let settleEndTime := (s.settleEndAt i).getD now
    if 0 < cfg.labHours ∧ optElapsed now (s.labStartAt i) then
      let s := { s with settleEndAt := Function.update s.settleEndAt i none }
      let s := changeState i LAB settleEndTime s
      logEvent settleEndTime "SETTLING_END" (some i) s
    else if cfg.labHours ≤ 0 then
      if optElapsed now (s.readyAt i) then
        let readyTime := (s.readyAt i).getD now
        let s := { s with bbl := Function.update s.bbl i cfg.usable }
        let s := { s with readyAt := Function.update s.readyAt i none,
                          settleEndAt := Function.update s.settleEndAt i none,
                          labStartAt := Function.update s.labStartAt i none }
        let s := logEvent settleEndTime "SETTLING_END" (some i) s
        let s := changeState i READY readyTime s
        let s := logEvent readyTime "READY" (some i) s
        { s with tankCycleCounter := (Function.update s.tankCycleCounter i
            (s.tankCycleCounter i + 1)) }
      else s
    else s
  else if s.state i = LAB ∧ optElapsed now (s.readyAt i) then
    let readyTime := (s.readyAt i).getD now
    let s := { s with bbl := Function.update s.bbl i cfg.usable }
    let s := { s with readyAt := Function.update s.readyAt i none,
                      labStartAt := Function.update s.labStartAt i none,
                      settleEndAt := Function.update s.settleEndAt i none }
    let s := changeState i READY readyTime s
    let s := logEvent readyTime "READY" (some i) s
    { s with tankCycleCounter := (Function.update s.tankCycleCounter i
        (s.tankCycleCounter i + 1)) }
  else s

/-- Simulator._promote_ready_tanks over every simulated tank. -/
def promoteReadyTanks (cfg : Cfg) (now : ℚ) (s : Sim) : Sim :=
  cfg.tankIds.foldl (promoteTank cfg now) s

/-- Simulator.__init__ (lines 36-269) for configurations without idle tank
data and without a solver plan: normalise initial levels to usable volume,
derive the initial state (empty, partially full IDLE, full READY), record
initially empty tanks, set IDLE fill timers, start tank 1 feeding when
READY, and write the initial log rows. -/
def initSim (cfg : Cfg) : Sim :=
  let tanks := cfg.tankIds
  let usableOf : ℕ → ℚ := fun i =>
    max 0 ((cfg.initialLevels i).getD cfg.usable - cfg.unusable)
  let state0 : ℕ → TState := fun i =>
    if usableOf i ≤ 0 then EMPTY
    else if usableOf i < cfg.usable - 100 then IDLE
    else READY
  let s : Sim := {
    state := fun i => if i ∈ tanks then state0 i else EMPTY
    bbl := fun i => if i ∈ tanks then usableOf i else 0
    active := 0
    readyForFillAt := fun _ => none
    readyAt := fun _ => none
    settleEndAt := fun _ => none
    labStartAt := fun _ => none
    feedStartVolume := fun _ => 0
    tankFeedStartTime := fun _ => none
    tankCycleCounter := fun _ => 1
    tankMix := fun _ => []
    stateHistory := []
    events := []
    noFeedAlertLogged := false
    firstCargoScheduled := false
    tankFilledFirst := []
    initiallyEmptyTanks := tanks.filter fun i => state0 i == EMPTY
    dailyConsumption := fun _ => 0
    activeFills := []
    cargos := []
    cargoRemainingVolume := fun _ => 0
    berths := fun _ => { freeAt := 0, currentCargo := none }
    cargoCounter := fun _ => 0
    initialState := fun i => if i ∈ tanks then state0 i else EMPTY
    rng := cfg.randFloats
    rngChoice := cfg.randChoices }
  let s := tanks.foldl (fun s i =>
    if s.state i = IDLE then
      let s := logEvent 0 "IDLE_FILL" (some i) s
      { s with readyForFillAt := Function.update s.readyForFillAt i (some 0) }
    else s) s
  let s :=
    if 1 ∈ tanks ∧ s.state 1 = READY then
      let s := { s with active := 1 }
      let s := changeState 1 FEEDING 0 s
      let s := { s with bbl := Function.update s.bbl 1 (min (s.bbl 1) cfg.usable) }
      let s := { s with feedStartVolume := Function.update s.feedStartVolume 1 (s.bbl 1) }
      { s with tankFeedStartTime := Function.update s.tankFeedStartTime 1 (some 0) }
    else { s with active := 0 }
  let s := logEvent 0 "SIM_START" none s
  let s := if s.active ≠ 0 then logEvent 0 "FEED_START" (some s.active) s else s
  logEvent 0 "CONFIG" none s

/-- Fuel bounding the iterations of the intra-day while loop: the loop
advances now by the snapshot interval each iteration and a day is at most
1440 minutes (with a non-positive interval the loop breaks immediately). -/
def stepFuel (cfg : Cfg) : ℕ :=
  if cfg.snapshotIntervalMinutes ≤ 0 then 1
  else (⌈(1440 : ℚ) / cfg.snapshotIntervalMinutes⌉).toNat + 2

/-- The while loop of Simulator.simulate_day (lines 1370-1398): promotion,
fill completion, feed assignment, fill start, then consumption to the step
end, then fill completion and promotion again.  Returns the final now and
state. -/
def stepLoop (cfg : Cfg) (dayEnd simEnd : ℚ) : ℕ → ℚ → Sim → ℚ × Sim
  | 0, now, s => (now, s)
  | fuel + 1, now, s =>
    if now < dayEnd then
      if simEnd ≤ now then (now, s)
      else
        let s := promoteReadyTanks cfg now s
        let s := maybeFinishFill cfg now s
        let s := ensureFeeding cfg now s
        let s := maybeStartFill cfg now s
        let stepEnd := min dayEnd (now + cfg.snapshotIntervalMinutes / 60)
        let stepEnd := if simEnd < stepEnd then simEnd else stepEnd
        if stepEnd ≤ now then (now, s)
        else
          let ps := consumeHour cfg now stepEnd s
          let s := maybeFinishFill cfg stepEnd ps.2
          let s := promoteReadyTanks cfg stepEnd s
          stepLoop cfg dayEnd simEnd fuel stepEnd s
    else (now, s)

/-- Simulator.simulate_day (lines 1276-1451), with the daily summary and
snapshot reporting reduced to the DAILY_STATUS and DAILY_END log rows. -/
def simulateDay (cfg : Cfg) (dayIndex : ℕ) (s : Sim) : Sim :=
  let dayStart : ℚ := dayIndex * 24
  let simEnd : ℚ := cfg.horizonDays * 24
  let dayEnd : ℚ := min (dayStart + 24) simEnd
  let s := promoteReadyTanks cfg dayStart s
  let s := { s with dailyConsumption := fun i =>
    if i ∈ cfg.tankIds then 0 else s.dailyConsumption i }
  let s := logEvent dayStart "DAILY_STATUS" none s
  let s := scheduleCargos cfg dayStart s
  let ns := stepLoop cfg dayEnd simEnd (stepFuel cfg) dayStart s
  let logTimestamp := if ns.1 < dayEnd then min ns.1 dayEnd else dayEnd - 1/60
  logEvent logTimestamp "DAILY_END" none ns.2

/-- Simulator.run (lines 1453-1474). -/
def runSim (cfg : Cfg) : Sim :=
  (List.range (⌈cfg.horizonDays⌉).toNat).foldl (fun s (d : ℕ) =>
    if cfg.horizonDays * 24 ≤ (d : ℚ) * 24 then s else simulateDay cfg d s)
    (initSim cfg)

/-! ## Simulator: driver phases and reachability -/

/-- The driver phases that mutate simulator state: every mutation performed
by __init__, simulate_day and run factors through these. -/
inductive Phase
  | promote (t : ℚ)
  | finish (t : ℚ)
  | ensure (t : ℚ)
  | start (t : ℚ)
  | consume (t1 t2 : ℚ)
  | schedule (t : ℚ)
  | resetDaily
  | logRow (t : ℚ) (code : String)

/-- Apply one driver phase. -/
def applyPhase (cfg : Cfg) (s : Sim) : Phase → Sim
  | .promote t => promoteReadyTanks cfg t s
  | .finish t => maybeFinishFill cfg t s
  | .ensure t => ensureFeeding cfg t s
  | .start t => maybeStartFill cfg t s
  | .consume t1 t2 => (consumeHour cfg t1 t2 s).2
  | .schedule t => scheduleCargos cfg t s
  | .resetDaily => { s with dailyConsumption := fun i =>
      if i ∈ cfg.tankIds then 0 else s.dailyConsumption i }
  | .logRow t code => logEvent t code none s

/-- The state reached after a sequence of driver phases from the initial
state; the states produced by runSim are all of this form. -/
def reach (cfg : Cfg) (phases : List Phase) : Sim :=
  phases.foldl (applyPhase cfg) (initSim cfg)

/-- Validity of a phase as generated by the driver: consumption steps run
forward in time. -/
def PhaseOK : Phase → Prop
  | .consume t1 t2 => t1 ≤ t2
  | _ => True

/-! ## Simulator: specification predicates -/

/-- Tracks who is feeding according to a history: a FEEDING entry makes its
tank the feeder, any other entry for the current feeder clears it. -/
def feedStep (acc : Option ℕ) (e : HE) : Option ℕ :=
  if e.st = FEEDING then some e.tid else if acc = some e.tid then none else acc

/-- Fold feedStep over a history. -/
def feedTracker (f : Option ℕ) (h : List HE) : Option ℕ := h.foldl feedStep f

/-- A history is well-fed when every FEEDING entry is appended only while no
tank is currently feeding: the previous feeder was first transitioned out. -/
def WellFed : Option ℕ → List HE → Prop
  | _, [] => True
  | f, e :: rest => (e.st = FEEDING → f = none) ∧ WellFed (feedStep f e) rest

/-- The single-feeder invariant: every FEEDING tank is the active tank, the
history tracker agrees with the current feeder, and the history is
well-fed. -/
def FeedInv (s : Sim) : Prop :=
  (∀ t, s.state t = FEEDING → t = s.active ∧ s.active ≠ 0) ∧
  feedTracker none s.stateHistory =
    (if s.active ≠ 0 ∧ s.state s.active = FEEDING then some s.active else none) ∧
  WellFed none s.stateHistory

/-- The volume invariant: every simulated tank holds between 0 and usable
capacity, every registered fill volume is nonnegative, and the active tank
is a simulated tank (or 0, meaning none). -/
def VolInv (cfg : Cfg) (s : Sim) : Prop :=
  (∀ t ∈ cfg.tankIds, 0 ≤ s.bbl t ∧ s.bbl t ≤ cfg.usable) ∧
  (∀ e ∈ s.activeFills, 0 ≤ e.2.2.2.2) ∧
  (s.active = 0 ∨ s.active ∈ cfg.tankIds)

/-- Scenario A of the spec: one tank of 400,000 bbl usable capacity,
processing rate 50,000 bbl/day, no cargos, an 8-day horizon; the snapshot
interval is a full day, so each simulated day is one consumption step. -/
def scenarioACfg : Cfg where
  numTanks := 1
  processingRate := 50000
  usable := 400000
  deadBottom := 0
  bufferVolume := 0
  settlingDays := 1
  labHours := 0
  dischargeRate := 30000
  cargoDefs := []
  horizonDays := 8
  minReadyTanks := 2
  firstCargoMinReady := 8
  firstCargoMaxReady := 9
  snapshotIntervalMinutes := 1440
  berthGapHoursMin := 0
  berthGapHoursMax := 0
  preDischargeDays := 0
  tankGapHours := 0
  tankFillGapHours := 0
  initialLevels := fun _ => none
  randFloats := []
  randChoices := []

/-- Configuration sanity for the volume bounds: nonnegative usable capacity
and unusable floor, and every configured initial gross level within gross
capacity. -/
def CfgOK (cfg : Cfg) : Prop :=
  0 ≤ cfg.usable ∧ 0 ≤ cfg.unusable ∧
    ∀ i v, cfg.initialLevels i = some v → v - cfg.unusable ≤ cfg.usable

/-- A history entry lying after the cutoff, exercising prefix stability. -/
def laterHE : HE := { t := 5, tid := 1, st := READY }

/-- A cargo record exercising fill completion: 100 bbl remain on vessel V. -/
def cargoW : Cargo where
  vesselName := "V"
  cargoType := "VLCC"
  crudeType := ""
  berth := 1
  arrival := 0
  fillStart := 0
  volume := 100
  tanksNeeded := 1
  tanksStarted := 1
  tanksDone := 0
  dischargeStart := some 0
  dischargeEnd := none
  tankFills := []
  dispatched := false
  nextFillAvailableAt := none

/-- A simulator state with one active fill of 100 bbl for vessel V ending at
time 10, for exercising fill completion. -/
def simW : Sim :=
  { initSim scenarioACfg with
      activeFills := [("V", 1, 0, 10, 100)],
      cargos := [cargoW],
      cargoRemainingVolume := fun n => if n == "V" then 100 else 0 }

/-! ## Theorems: solver search -/

theorem goodAcc_step (vessels : List (String × ℚ)) (ratios : List ℚ)
    (processed : List Combo) (acc : Option Combo × Option ℚ) (c : Combo)
    (h : GoodAcc vessels ratios processed acc) :
    GoodAcc vessels ratios (processed ++ [c]) (comboStep vessels ratios acc c) := by
  obtain ⟨bc, bd⟩ := acc
  obtain ⟨hnone, hsome⟩ := h
  cases bc with
  | none =>
    obtain ⟨hbd, hall⟩ := hnone rfl
    subst hbd
    by_cases hok : comboOk vessels ratios c = true
    · have hstep : comboStep vessels ratios (none, none) c
          = (some c, some (comboDeviation vessels ratios c)) := by
        simp [comboStep, devBelow, hok]
      rw [hstep]
      refine ⟨fun h2 => by simp at h2, fun c2 hc2 => ?_⟩
      have hc3 : c = c2 := by simpa using hc2
      subst hc3
      refine ⟨rfl, processed, [], by simp, hok, ?_, by simp⟩
      intro x hx hokx
      exact absurd hokx (by simp [hall x hx])
    · have hstep : comboStep vessels ratios (none, none) c = (none, none) := by
        simp only [comboStep, devBelow]
        rw [if_neg]
        simp [hok]
      rw [hstep]
      refine ⟨fun _ => ⟨rfl, ?_⟩, fun c2 hc2 => by simp at hc2⟩
      intro x hx
      rcases List.mem_append.mp hx with h1 | h2
      · exact hall x h1
      · simp only [List.mem_singleton] at h2
        subst h2
        exact Bool.eq_false_iff.mpr hok
  | some b =>
    obtain ⟨hbd, l₁, l₂, hsplit, hokb, hlt, hle⟩ := hsome b rfl
    subst hbd
    by_cases hcond : comboOk vessels ratios c = true ∧
        comboDeviation vessels ratios c < comboDeviation vessels ratios b
    · have hstep : comboStep vessels ratios (some b, some (comboDeviation vessels ratios b)) c
          = (some c, some (comboDeviation vessels ratios c)) := by
        simp [comboStep, devBelow, hcond.1, hcond.2]
      rw [hstep]
      refine ⟨fun h2 => by simp at h2, fun c2 hc2 => ?_⟩
      have hc3 : c = c2 := by simpa using hc2
      subst hc3
      refine ⟨rfl, processed, [], by simp, hcond.1, ?_, by simp⟩
      intro x hx hokx
      rw [hsplit] at hx
      rcases List.mem_append.mp hx with h1 | h2
      · exact lt_trans hcond.2 (hlt x h1 hokx)
      · rcases List.mem_cons.mp h2 with h3 | h4
        · subst h3; exact hcond.2
        · exact lt_of_lt_of_le hcond.2 (hle x h4 hokx)
    · have hstep : comboStep vessels ratios (some b, some (comboDeviation vessels ratios b)) c
          = (some b, some (comboDeviation vessels ratios b)) := by
        simp only [comboStep, devBelow]
        rw [if_neg]
        intro hx
        rcases (Bool.and_eq_true _ _).mp hx with ⟨h1, h2⟩
        exact hcond ⟨h1, by simpa using h2⟩
      rw [hstep]
      refine ⟨fun h2 => by simp at h2, fun c2 hc2 => ?_⟩
      have hc3 : b = c2 := by simpa using hc2
      subst hc3
      refine ⟨rfl, l₁, l₂ ++ [c], by rw [hsplit]; simp, hokb, hlt, ?_⟩
      intro x hx hokx
      rcases List.mem_append.mp hx with h1 | h2
      · exact hle x h1 hokx
      · simp only [List.mem_singleton] at h2
        subst h2
        by_contra hgt
        exact hcond ⟨hokx, lt_of_not_le hgt⟩

theorem goodAcc_fold (vessels : List (String × ℚ)) (ratios : List ℚ) :
    ∀ (l processed : List Combo) (acc : Option Combo × Option ℚ),
      GoodAcc vessels ratios processed acc →
      GoodAcc vessels ratios (processed ++ l) (l.foldl (comboStep vessels ratios) acc) := by
  intro l
  induction l with
  | nil => intro processed acc h; simpa using h
  | cons c cs ih =>
    intro processed acc h
    have h2 := goodAcc_step vessels ratios processed acc c h
    have h3 := ih (processed ++ [c]) (comboStep vessels ratios acc c) h2
    simpa using h3

theorem goodAcc_result (vessels : List (String × ℚ)) (ratios : List ℚ) (l : List Combo) :
    GoodAcc vessels ratios l
      (l.foldl (comboStep vessels ratios) (none, none)) := by
  have h0 : GoodAcc vessels ratios [] ((none, none) : Option Combo × Option ℚ) :=
    ⟨fun _ => ⟨rfl, by simp⟩, fun c hc => by simp at hc⟩
  have h1 := goodAcc_fold vessels ratios l [] (none, none) h0
  rwa [List.nil_append] at h1

theorem searchCombos_spec (vessels : List (String × ℚ)) (ratios : List ℚ)
    (l : List Combo)
    (hne : ∃ c ∈ l, comboOk vessels ratios c = true) :
    ∃ c, searchCombos vessels ratios l = some c ∧
      c ∈ l ∧ comboOk vessels ratios c = true ∧
      (∀ x ∈ l, comboOk vessels ratios x = true →
        comboDeviation vessels ratios c ≤ comboDeviation vessels ratios x) ∧
      ∃ l₁ l₂, l = l₁ ++ c :: l₂ ∧
        ∀ x ∈ l₁, comboOk vessels ratios x = true →
          comboDeviation vessels ratios c < comboDeviation vessels ratios x := by
  have hg := goodAcc_result vessels ratios l
  have hdef : searchCombos vessels ratios l
      = (l.foldl (comboStep vessels ratios) (none, none)).1 := rfl
  generalize hres : l.foldl (comboStep vessels ratios) (none, none) = r at hg hdef
  obtain ⟨bc, bd⟩ := r
  cases bc with
  | none =>
    obtain ⟨_, hall⟩ := hg.1 rfl
    obtain ⟨c, hc, hok⟩ := hne
    exact absurd hok (by simp [hall c hc])
  | some c =>
    obtain ⟨hbd, l₁, l₂, hsplit, hok, hlt, hle⟩ := hg.2 c rfl
    refine ⟨c, by simpa using hdef, ?_, hok, ?_, l₁, l₂, hsplit, hlt⟩
    · rw [hsplit]; exact List.mem_append.mpr (Or.inr (List.mem_cons_self c l₂))
    · intro x hx hokx
      rw [hsplit] at hx
      rcases List.mem_append.mp hx with h1 | h2
      · exact le_of_lt (hlt x h1 hokx)
      · rcases List.mem_cons.mp h2 with h3 | h4
        · subst h3; exact le_refl _
        · exact hle x h4 hokx


/-- C6: for every target crude-ratio vector and every set of available vessel
classes with positive capacities, whenever some grid combination passes the
guards (as many used classes as crude types, nonzero volume, deviation at
least 1e-6), _find_optimal_vessel_combination returns a guard-passing
combination of minimum total absolute deviation, and it is the first
minimum in the deterministic nested iteration order. -/
theorem claim_C6_vessel_combination_minimizes (vessels : List (String × ℚ))
    (ratios : List ℚ) (hpos : ∀ v ∈ vessels, 0 < v.2)
    (hne : ∃ c ∈ allCombos, comboOk vessels ratios c = true) :
    ∃ c, findOptimalVesselCombination vessels ratios = some c ∧
      c ∈ allCombos ∧ comboOk vessels ratios c = true ∧
      (∀ x ∈ allCombos, comboOk vessels ratios x = true →
        comboDeviation vessels ratios c ≤ comboDeviation vessels ratios x) ∧
      ∃ l₁ l₂, allCombos = l₁ ++ c :: l₂ ∧
        ∀ x ∈ l₁, comboOk vessels ratios x = true →
          comboDeviation vessels ratios c < comboDeviation vessels ratios x := by
  have e : findOptimalVesselCombination vessels ratios
      = searchCombos vessels ratios allCombos := rfl
  rw [e]
  exact searchCombos_spec vessels ratios allCombos hne

set_option maxRecDepth 4000 in
unseal Rat.add Rat.sub Rat.mul Rat.inv Rat.ofScientific in
theorem claim_C6_witness :
    (∀ v ∈ ([("vlcc", (2 : ℚ)), ("aframax", 1)] : List (String × ℚ)), 0 < v.2) ∧
    (∃ c ∈ allCombos,
      comboOk [("vlcc", (2 : ℚ)), ("aframax", 1)] [3/5, 2/5] c = true) ∧
    ∃ c, findOptimalVesselCombination [("vlcc", (2 : ℚ)), ("aframax", 1)] [3/5, 2/5]
        = some c ∧
      c ∈ allCombos ∧
      comboOk [("vlcc", (2 : ℚ)), ("aframax", 1)] [3/5, 2/5] c = true ∧
      (∀ x ∈ allCombos,
        comboOk [("vlcc", (2 : ℚ)), ("aframax", 1)] [3/5, 2/5] x = true →
        comboDeviation [("vlcc", (2 : ℚ)), ("aframax", 1)] [3/5, 2/5] c ≤
          comboDeviation [("vlcc", (2 : ℚ)), ("aframax", 1)] [3/5, 2/5] x) ∧
      ∃ l₁ l₂, allCombos = l₁ ++ c :: l₂ ∧
        ∀ x ∈ l₁,
          comboOk [("vlcc", (2 : ℚ)), ("aframax", 1)] [3/5, 2/5] x = true →
          comboDeviation [("vlcc", (2 : ℚ)), ("aframax", 1)] [3/5, 2/5] c <
            comboDeviation [("vlcc", (2 : ℚ)), ("aframax", 1)] [3/5, 2/5] x := by
  have hpos : ∀ v ∈ ([("vlcc", (2 : ℚ)), ("aframax", 1)] : List (String × ℚ)), 0 < v.2 := by
    decide
  have hmem : witnessCombo ∈ allCombos := by
    unfold allCombos multUlcc multVlcc multSuez multAfra multPana multHandymax multHandySize
    simp only [List.mem_flatMap, List.mem_map]
    refine ⟨0, by norm_num, 1, by norm_num, 0, by norm_num, 1, by norm_num,
      0, by norm_num, 0, by norm_num, 0, by norm_num, rfl⟩
  have hok : comboOk [("vlcc", (2 : ℚ)), ("aframax", 1)] [3/5, 2/5] witnessCombo = true := by
    decide
  exact ⟨hpos, ⟨_, hmem, hok⟩,
    claim_C6_vessel_combination_minimizes _ _ hpos ⟨_, hmem, hok⟩⟩

/-! ## Theorems: empty search result and fallback (C10) -/

theorem cargoVolumes_nil_vessels (c : Combo) : cargoVolumes [] c = [] := by
  simp [cargoVolumes]

theorem searchCombos_none (vessels : List (String × ℚ)) (ratios : List ℚ)
    (l : List Combo)
    (hall : ∀ c ∈ l, comboOk vessels ratios c = false) (hv : vessels ≠ []) :
    searchCombos vessels ratios l = none ∧
    ∃ v, buildVesselSequence vessels (searchCombos vessels ratios l) = [v.1] ∧
      v ∈ vessels ∧ ∀ w ∈ vessels, w.2 ≤ v.2 := by
  have hg := goodAcc_result vessels ratios l
  have hdef : searchCombos vessels ratios l
      = (l.foldl (comboStep vessels ratios) (none, none)).1 := rfl
  generalize hres : l.foldl (comboStep vessels ratios) (none, none) = r at hg hdef
  obtain ⟨bc, bd⟩ := r
  have hnone : bc = none := by
    cases bc with
    | none => rfl
    | some c =>
      obtain ⟨_, l₁, l₂, hsplit, hok, _, _⟩ := hg.2 c rfl
      have hcmem : c ∈ l := by
        rw [hsplit]; exact List.mem_append.mpr (Or.inr (List.mem_cons_self c l₂))
      exact absurd hok (by simp [hall c hcmem])
  subst hnone
  have hfind : searchCombos vessels ratios l = none := by simpa using hdef
  refine ⟨hfind, ?_⟩
  rw [hfind]
  have hsorted := List.sorted_insertionSort capGE vessels
  have hperm := List.perm_insertionSort capGE vessels
  rcases hsort : List.insertionSort capGE vessels with _ | ⟨v, rest⟩
  · rw [hsort] at hperm
    exact absurd hperm.nil_eq.symm hv
  · refine ⟨v, ?_, ?_, ?_⟩
    · simp [buildVesselSequence, hsort]
    · have hvmem : v ∈ List.insertionSort capGE vessels := by
        rw [hsort]; exact List.mem_cons_self _ _
      exact hperm.mem_iff.mp hvmem
    · intro w hw
      have hw2 : w ∈ v :: rest := by
        rw [← hsort]; exact hperm.symm.mem_iff.mp hw
      rcases List.mem_cons.mp hw2 with h1 | h2
      · subst h1; exact le_refl _
      · rw [hsort] at hsorted
        exact List.rel_of_sorted_cons hsorted w h2

/-- C10: when every grid point is filtered out (wrong used-class count, zero
volume, or deviation below the 1e-6 epsilon), the vessel-combination search
returns none, and the vessel rotation built from that result in
_generate_optimal_cargo_mix is exactly the single largest-capacity available
vessel class. -/
theorem claim_C10_search_none_fallback (vessels : List (String × ℚ)) (ratios : List ℚ)
    (hall : ∀ c ∈ allCombos, comboOk vessels ratios c = false) (hv : vessels ≠ []) :
    findOptimalVesselCombination vessels ratios = none ∧
    ∃ v, buildVesselSequence vessels (findOptimalVesselCombination vessels ratios) = [v.1] ∧
      v ∈ vessels ∧ ∀ w ∈ vessels, w.2 ≤ v.2 := by
  have e : findOptimalVesselCombination vessels ratios
      = searchCombos vessels ratios allCombos := rfl
  rw [e]
  exact searchCombos_none vessels ratios allCombos hall hv
theorem cargoVolumes_single_vlcc (c : Combo) :
    cargoVolumes [("vlcc", (2 : ℚ))] c
      = if (0 : ℚ) < c.vlcc then [2 * c.vlcc] else [] := by
  by_cases h : (0 : ℚ) < c.vlcc <;>
    simp [cargoVolumes, vesselOrder, Combo.vals, List.lookup, h]

theorem claim_C10_witness :
    (∀ c ∈ allCombos, comboOk [("vlcc", (2 : ℚ))] [3/5, 2/5, 1/5] c = false) ∧
    (([("vlcc", (2 : ℚ))] : List (String × ℚ)) ≠ []) ∧
    (findOptimalVesselCombination [("vlcc", (2 : ℚ))] [3/5, 2/5, 1/5] = none ∧
    ∃ v, buildVesselSequence [("vlcc", (2 : ℚ))]
        (findOptimalVesselCombination [("vlcc", (2 : ℚ))] [3/5, 2/5, 1/5]) = [v.1] ∧
      v ∈ ([("vlcc", (2 : ℚ))] : List (String × ℚ)) ∧
      ∀ w ∈ ([("vlcc", (2 : ℚ))] : List (String × ℚ)), w.2 ≤ v.2) := by
  have hall : ∀ c ∈ allCombos, comboOk [("vlcc", (2 : ℚ))] [3/5, 2/5, 1/5] c = false := by
    intro c _
    rw [comboOk]
    apply decide_eq_false
    intro hcontra
    obtain ⟨-, h2, -, -⟩ := hcontra
    rw [cargoVolumes_single_vlcc] at h2
    by_cases hv : (0 : ℚ) < c.vlcc
    · rw [if_pos hv] at h2; simp at h2
    · rw [if_neg hv] at h2; simp at h2
  have hv : (([("vlcc", (2 : ℚ))] : List (String × ℚ))) ≠ [] := by simp
  exact ⟨hall, hv, claim_C10_search_none_fallback _ _ hall hv⟩

/-! ## Theorems: iterative optimizer feedback loop (C7) -/

theorem isBestOf_update (b : Option (Sched × ℚ)) (l : List (Sched × ℚ)) (x : Sched × ℚ)
    (h : IsBestOf b l) : IsBestOf (traceBest b x) (l ++ [x]) := by
  cases b with
  | none =>
    have hl : l = [] := h.1 rfl
    subst hl
    refine ⟨fun h2 => by simp [traceBest] at h2, fun b2 hb2 => ?_⟩
    have hb3 : x = b2 := by simpa [traceBest] using hb2
    subst hb3
    exact ⟨by simp, by simp, [], [], by simp, by simp⟩
  | some b0 =>
    obtain ⟨hmem, hub, l₁, l₂, hsplit, hstrict⟩ := h.2 b0 rfl
    by_cases hx : x.2 < b0.2
    · have ht : traceBest (some b0) x = some x := by simp [traceBest, hx]
      rw [ht]
      refine ⟨fun h2 => by simp at h2, fun b2 hb2 => ?_⟩
      have hb3 : x = b2 := by simpa using hb2
      subst hb3
      refine ⟨List.mem_append.mpr (Or.inr (by simp)), ?_, l, [], by simp, ?_⟩
      · intro y hy
        rcases List.mem_append.mp hy with h1 | h2
        · exact le_of_lt (lt_of_lt_of_le hx (hub y h1))
        · simp only [List.mem_singleton] at h2; subst h2; exact le_refl _
      · intro y hy
        exact lt_of_lt_of_le hx (hub y hy)
    · have ht : traceBest (some b0) x = some b0 := by simp [traceBest, hx]
      rw [ht]
      refine ⟨fun h2 => by simp at h2, fun b2 hb2 => ?_⟩
      have hb3 : b0 = b2 := by simpa using hb2
      subst hb3
      refine ⟨List.mem_append.mpr (Or.inl hmem), ?_, l₁, l₂ ++ [x], ?_, hstrict⟩
      · intro y hy
        rcases List.mem_append.mp hy with h1 | h2
        · exact hub y h1
        · simp only [List.mem_singleton] at h2; subst h2; exact le_of_not_lt hx
      · rw [hsplit]; simp


theorem iterGo_isBest (gen : Option Combo → ℕ → Sched) (vessels : List (String × ℚ))
    (names : List String) (base : List ℚ) :
    ∀ (fuel iteration : ℕ) (targets : List ℚ) (pat : Option Combo)
      (best : Option (Sched × ℚ)) (trace : List (Sched × ℚ)),
      IsBestOf best trace.reverse →
      IsBestOf (iterGo gen vessels names base fuel iteration targets pat best trace).1
        (iterGo gen vessels names base fuel iteration targets pat best trace).2 := by
  intro fuel
  induction fuel with
  | zero => intro iteration targets pat best trace h; simpa [iterGo] using h
  | succ fuel ih =>
    intro iteration targets pat best trace h
    rw [iterGo]
    set pat1 := if iteration > 0 then
        match findOptimalVesselCombination vessels targets with
        | some np => some np
        | none => pat
      else pat with hpat1
    set sched := gen pat1 iteration with hsched
    set actual := actualRatiosOf names sched with hactual
    set d := maxDeviation base actual with hd
    have hupd := isBestOf_update best trace.reverse (sched, d) h
    have hrev : ((sched, d) :: trace).reverse = trace.reverse ++ [(sched, d)] := by
      simp
    by_cases htol : d ≤ 1/1000
    · rw [if_pos htol]
      rw [hrev]
      exact hupd
    · rw [if_neg htol]
      by_cases hit : iteration < 9
      · rw [if_pos hit]
        exact ih (iteration + 1) (adjustTargets targets base actual) pat1
          (traceBest best (sched, d)) ((sched, d) :: trace) (by rw [hrev]; exact hupd)
      · rw [if_neg hit]
        exact ih (iteration + 1) targets pat1
          (traceBest best (sched, d)) ((sched, d) :: trace) (by rw [hrev]; exact hupd)

theorem rawSum_lower (c b a : List ℚ) (hcb : c.length = b.length)
    (h : b.length = a.length) :
    c.sum - 4/5 * a.sum + 4/5 * b.sum ≤ (adjustRaw c b a).sum := by
  induction c generalizing b a with
  | nil =>
    cases b with
    | nil =>
      cases a with
      | nil => simp [adjustRaw]
      | cons y ys => simp at h
    | cons z zs => simp at hcb
  | cons x xs ih =>
    cases b with
    | nil => simp at hcb
    | cons z zs =>
      cases a with
      | nil => simp at h
      | cons y ys =>
        have hcb2 : xs.length = zs.length := by simpa using hcb
        have h2 : zs.length = ys.length := by simpa using h
        have ih2 := ih zs ys hcb2 h2
        simp only [adjustRaw, List.zip_cons_cons, List.map_cons, List.sum_cons] at ih2 ⊢
        have hx : x - 4/5 * (y - z) ≤ max (1/1000) (x - 4/5 * (y - z)) := le_max_right _ _
        linarith

/-- C7 (amended): when an iteration's measured actual ratio for a crude
overshoots the true required ratio and tolerance is not met, the correction
subtracts 0.8 of the observed error from the crude's current adjusted
target, clamps at the 0.001 floor and renormalizes the targets to sum to 1;
when the clamp floor is not hit, the pre-renormalization value is strictly
below the crude's current adjusted target, and the renormalized target is
strictly below the true required ratio whenever in addition the current
adjusted target does not exceed the true ratio; and across all iterations
the optimizer tracks and returns the best (lowest maximum-deviation)
schedule seen — the first one attaining the minimum — even if tolerance is
never met. -/
theorem claim_C7_feedback_and_best_tracking :
    (∀ (current base actual : List ℚ) (i : ℕ),
      current.length = base.length → base.length = actual.length →
      i < current.length →
      base.getD i 0 < actual.getD i 0 →
      1/1000 < current.getD i 0 - 4/5 * (actual.getD i 0 - base.getD i 0) →
      ¬ maxDeviation base actual ≤ 1/1000 →
      (adjustRaw current base actual).getD i 0 < current.getD i 0) ∧
    (∀ (current base actual : List ℚ) (i : ℕ),
      current.length = base.length → base.length = actual.length →
      current.sum = 1 → base.sum = 1 → actual.sum = 1 →
      i < current.length →
      base.getD i 0 < actual.getD i 0 →
      current.getD i 0 ≤ base.getD i 0 →
      1/1000 < current.getD i 0 - 4/5 * (actual.getD i 0 - base.getD i 0) →
      ¬ maxDeviation base actual ≤ 1/1000 →
      (adjustTargets current base actual).getD i 0 < base.getD i 0) ∧
    (∀ (gen : Option Combo → ℕ → Sched) (vessels : List (String × ℚ))
      (names : List String) (base : List ℚ) (pat0 : Option Combo),
      IsBestOf (iterativeCargoOptimization gen vessels names base pat0).1
        (iterativeCargoOptimization gen vessels names base pat0).2) := by
  refine ⟨?_, ?_, ?_⟩
  · intro current base actual i hlenc hlen hi herr hfloor _
    have hib : i < base.length := hlenc ▸ hi
    have hia : i < actual.length := hlen ▸ hib
    have hL : (adjustRaw current base actual).length = actual.length := by
      simp [adjustRaw, List.length_zip, hlenc, hlen]
    have hiz : i < (adjustRaw current base actual).length := by rw [hL]; exact hia
    have hval : (adjustRaw current base actual).getD i 0
        = max (1/1000) (current.get ⟨i, hi⟩
            - 4/5 * (actual.get ⟨i, hia⟩ - base.get ⟨i, hib⟩)) := by
      rw [List.getD_eq_getElem _ _ hiz]
      simp [adjustRaw, List.getElem_zip]
    have hg1 : current.getD i 0 = current.get ⟨i, hi⟩ := List.getD_eq_getElem _ _ hi
    have hg2 : base.getD i 0 = base.get ⟨i, hib⟩ := List.getD_eq_getElem _ _ hib
    have hg3 : actual.getD i 0 = actual.get ⟨i, hia⟩ := List.getD_eq_getElem _ _ hia
    rw [hg2, hg3] at herr
    rw [hg1, hg2, hg3] at hfloor
    rw [hval, hg1, max_eq_right (le_of_lt hfloor)]
    linarith
  · intro current base actual i hlenc hlen hsc hsb hsa hi herr hcur hfloor _
    have hib : i < base.length := hlenc ▸ hi
    have hia : i < actual.length := hlen ▸ hib
    have hS : (1 : ℚ) ≤ (adjustRaw current base actual).sum := by
      have hlow := rawSum_lower current base actual hlenc hlen
      rw [hsc, hsb, hsa] at hlow
      linarith
    have hL : (adjustRaw current base actual).length = actual.length := by
      simp [adjustRaw, List.length_zip, hlenc, hlen]
    have hiz : i < (adjustRaw current base actual).length := by rw [hL]; exact hia
    have hira : i < ((adjustRaw current base actual).map
        fun x => x / (adjustRaw current base actual).sum).length := by
      rw [List.length_map]; exact hiz
    have hadj : (adjustTargets current base actual).getD i 0
        = (max (1/1000) (current.get ⟨i, hi⟩
            - 4/5 * (actual.get ⟨i, hia⟩ - base.get ⟨i, hib⟩)))
          / (adjustRaw current base actual).sum := by
      rw [adjustTargets]
      rw [List.getD_eq_getElem _ _ hira]
      simp [adjustRaw, List.getElem_zip]
    rw [hadj]
    have hg1 : current.getD i 0 = current.get ⟨i, hi⟩ := List.getD_eq_getElem _ _ hi
    have hg2 : base.getD i 0 = base.get ⟨i, hib⟩ := List.getD_eq_getElem _ _ hib
    have hg3 : actual.getD i 0 = actual.get ⟨i, hia⟩ := List.getD_eq_getElem _ _ hia
    rw [hg2, hg3] at herr
    rw [hg1, hg2] at hcur
    rw [hg1, hg2, hg3] at hfloor
    rw [hg2]
    set β := base.get ⟨i, hib⟩
    set α := actual.get ⟨i, hia⟩
    set γ := current.get ⟨i, hi⟩
    set S := (adjustRaw current base actual).sum
    rw [max_eq_right (le_of_lt hfloor)]
    have hpos : (0 : ℚ) ≤ γ - 4/5 * (α - β) := by linarith
    have h1 : (γ - 4/5 * (α - β)) / S ≤ γ - 4/5 * (α - β) := div_le_self hpos hS
    linarith
  · intro gen vessels names base pat0
    apply iterGo_isBest
    exact ⟨fun _ => by simp, fun b hb => by simp at hb⟩

set_option maxRecDepth 8000 in
unseal Rat.add Rat.sub Rat.mul Rat.inv Rat.ofScientific in
theorem claim_C7_witness :
    (([3/5, 2/5] : List ℚ).getD 0 0 < ([13/20, 7/20] : List ℚ).getD 0 0) ∧
    ¬ maxDeviation [3/5, 2/5] [13/20, 7/20] ≤ 1/1000 ∧
    (([59/100, 41/100] : List ℚ).getD 0 0 ≤ ([3/5, 2/5] : List ℚ).getD 0 0) ∧
    (adjustRaw [59/100, 41/100] [3/5, 2/5] [13/20, 7/20]).getD 0 0
      < ([59/100, 41/100] : List ℚ).getD 0 0 ∧
    (adjustTargets [59/100, 41/100] [3/5, 2/5] [13/20, 7/20]).getD 0 0
      < ([3/5, 2/5] : List ℚ).getD 0 0 := by
  refine ⟨by decide, by decide, by decide, ?_, ?_⟩
  · exact claim_C7_feedback_and_best_tracking.1 [59/100, 41/100] [3/5, 2/5] [13/20, 7/20] 0
      (by decide) (by decide) (by decide) (by decide) (by decide) (by decide)
  · exact claim_C7_feedback_and_best_tracking.2.1 [59/100, 41/100] [3/5, 2/5] [13/20, 7/20] 0
      (by decide) (by decide) (by decide) (by decide) (by decide) (by decide)
      (by decide) (by decide) (by decide) (by decide)

set_option maxRecDepth 8000 in
unseal Rat.add Rat.sub Rat.mul Rat.inv Rat.ofScientific in
theorem counterexample_C7 :
    (([1/2000, 1999/2000] : List ℚ).getD 0 0 < ([1/500, 499/500] : List ℚ).getD 0 0) ∧
    ¬ maxDeviation [1/2000, 1999/2000] [1/500, 499/500] ≤ 1/1000 ∧
    ¬ ((adjustTargets [1/2000, 1999/2000] [1/2000, 1999/2000] [1/500, 499/500]).getD 0 0
        < ([1/2000, 1999/2000] : List ℚ).getD 0 0) := by
  decide

/-! ## Theorems: solver exception handling (C8) -/

/-- C8 (amended): any exception raised while solving is caught and the entry
point optimize_crude_mix_schedule returns a structured failure dict with
success False and the error message, never propagating the exception; the
failure dict carries no cargo_schedule key, because the exception is caught
inside solve_crude_mix_schedule whose handler omits that key (the outer
handler, which would attach an empty schedule, is unreachable).  When the body
succeeds its result is passed through with the console output attached. -/
theorem claim_C8_solver_exception_handling
    (body : Params → Except String SolverResult) (p : Params) :
    (∀ e, body p = .error e →
      optimizeCrudeMixSchedule body p =
        { success := false, error := some e, cargoSchedule := none,
          consoleAttached := true }) ∧
    (∀ r, body p = .ok r →
      optimizeCrudeMixSchedule body p = { r with consoleAttached := true }) := by
  constructor
  · intro e he
    simp [optimizeCrudeMixSchedule, solveCrudeMixSchedule, he]
  · intro r hr
    simp [optimizeCrudeMixSchedule, solveCrudeMixSchedule, hr]

theorem claim_C8_witness :
    (errBody [] = .error "boom") ∧
    optimizeCrudeMixSchedule errBody [] =
      { success := false, error := some "boom", cargoSchedule := none,
        consoleAttached := true } :=
  ⟨rfl, (claim_C8_solver_exception_handling errBody []).1 "boom" rfl⟩

theorem counterexample_C8 :
    cexBody cexParams = .error "could not convert string to float: abc" ∧
    (optimizeCrudeMixSchedule cexBody cexParams).success = false ∧
    (optimizeCrudeMixSchedule cexBody cexParams).error ≠ none ∧
    (optimizeCrudeMixSchedule cexBody cexParams).cargoSchedule = none := by
  exact ⟨rfl, rfl, by decide, rfl⟩

/-! ## Theorems: state reconstruction is prefix-stable (C5) -/

theorem replayStates_append_later (tanks : List ℕ) (ts : ℚ) :
    ∀ (h₁ extra : List HE) (st : ℕ → TState), (∀ e ∈ extra, ts < e.t) →
      replayStates tanks ts st (h₁ ++ extra) = replayStates tanks ts st h₁ := by
  intro h₁
  induction h₁ with
  | nil =>
    intro extra st hextra
    cases extra with
    | nil => rfl
    | cons e rest =>
      have h1 : ¬ e.t ≤ ts := not_le.mpr (hextra e (List.mem_cons_self e rest))
      simp only [List.nil_append, replayStates, if_neg h1]
  | cons e rest ih =>
    intro extra st hextra
    simp only [List.cons_append, replayStates]
    by_cases h : e.t ≤ ts
    · simp only [if_pos h]
      exact ih extra _ hextra
    · simp only [if_neg h]

/-- C5: state reconstruction from history is prefix-stable — reconstructing
tank states at a cutoff ts gives the same result on the recorded history and
on any extension of it whose added entries all carry timestamps after ts, so
replaying a prefix of the history is never inconsistent with replaying a
longer history up to the same cutoff. -/
theorem claim_C5_replay_prefix_stable (cfg : Cfg) (s : Sim) (extra : List HE) (ts : ℚ)
    (h : ∀ e ∈ extra, ts < e.t) :
    getStateAtTime cfg { s with stateHistory := s.stateHistory ++ extra } ts
      = getStateAtTime cfg s ts := by
  unfold getStateAtTime
  exact replayStates_append_later cfg.tankIds ts s.stateHistory extra s.initialState h

theorem claim_C5_witness :
    (∀ e ∈ [laterHE], (0 : ℚ) < e.t) ∧
    getStateAtTime scenarioACfg
        { initSim scenarioACfg with
            stateHistory := (initSim scenarioACfg).stateHistory ++ [laterHE] } 0
      = getStateAtTime scenarioACfg (initSim scenarioACfg) 0 :=
  ⟨by decide,
   claim_C5_replay_prefix_stable scenarioACfg (initSim scenarioACfg) [laterHE] 0 (by decide)⟩

/-! ## The sequential wrap-around scan order -/

theorem indexOf?_lt_length {l : List ℕ} {a k : ℕ} (h : l.indexOf? a = some k) :
    k < l.length := by
  induction l generalizing k with
  | nil => simp [List.indexOf?_nil] at h
  | cons b t ih =>
    rw [List.indexOf?_cons] at h
    by_cases hb : (b == a) = true
    · rw [if_pos hb] at h
      cases h
      simp
    · rw [if_neg hb] at h
      cases hx : List.indexOf? a t with
      | none => rw [hx] at h; simp at h
      | some k' =>
        rw [hx] at h
        simp only [Option.map_some'] at h
        cases h
        have := ih hx
        simp only [List.length_cons]
        omega

theorem rot_eq_range_map (l : List ℕ) (b : ℕ) (hb : b ≤ l.length) :
    l.drop b ++ l.take b
      = (List.range l.length).map fun j => l.getD ((b + j) % l.length) 0 := by
  apply List.ext_getElem
  · simp only [List.length_append, List.length_drop, List.length_take,
      List.length_map, List.length_range]
    omega
  · intro i h1 h2
    simp only [List.length_map, List.length_range] at h2
    have hlen : 0 < l.length := Nat.pos_of_ne_zero (by omega)
    have hmod : (b + i) % l.length < l.length := Nat.mod_lt _ hlen
    rw [List.getElem_map]
    rw [List.getElem_range]
    rw [List.getD_eq_getElem l 0 hmod]
    by_cases hi : i < l.length - b
    · have hdl : i < (l.drop b).length := by simp [List.length_drop]; omega
      rw [List.getElem_append_left hdl]
      rw [List.getElem_drop]
      have : (b + i) % l.length = b + i := Nat.mod_eq_of_lt (by omega)
      simp only [this]
    · have hge : (l.drop b).length ≤ i := by simp [List.length_drop]; omega
      rw [List.getElem_append_right hge]
      have hsub : (b + i) % l.length = b + i - l.length := by
        rw [Nat.mod_eq_sub_mod (by omega)]
        exact Nat.mod_eq_of_lt (by omega)
      simp only [List.getElem_take, List.length_drop, hsub]
      have : i - (l.length - b) = b + i - l.length := by omega
      simp only [this]

theorem findNextReady_eq_rot (cfg : Cfg) (s : Sim) (f : ℕ) :
    findNextReadySequential cfg s f
      = (rotAfter cfg.tankIds f).findSome? fun tid =>
          if s.state tid = READY then some tid else none := by
  have key : ∀ b, b ≤ cfg.tankIds.length →
      (cfg.tankIds.drop b ++ cfg.tankIds.take b).findSome?
          (fun tid => if s.state tid = READY then some tid else none)
        = (List.range cfg.tankIds.length).findSome?
            (fun j => if s.state (cfg.tankIds.getD ((b + j) % cfg.tankIds.length) 0) = READY
              then some (cfg.tankIds.getD ((b + j) % cfg.tankIds.length) 0) else none) := by
    intro b hb
    rw [rot_eq_range_map cfg.tankIds b hb, List.findSome?_map]
    rfl
  unfold findNextReadySequential rotAfter
  cases hidx : cfg.tankIds.indexOf? f with
  | none =>
    simp only [hidx]
    have h0 := (key 0 (Nat.zero_le _)).symm
    simpa using h0
  | some k =>
    simp only [hidx]
    exact (key (k + 1) (indexOf?_lt_length hidx)).symm

theorem mem_of_mem_rotAfter {l : List ℕ} {f a : ℕ} (h : a ∈ rotAfter l f) : a ∈ l := by
  unfold rotAfter at h
  cases hidx : l.indexOf? f with
  | none => rw [hidx] at h; exact h
  | some k =>
    rw [hidx] at h
    rcases List.mem_append.mp h with h' | h'
    · exact List.mem_of_mem_drop h'
    · exact List.mem_of_mem_take h'

theorem findNextReady_some {cfg : Cfg} {s : Sim} {f nxt : ℕ}
    (h : findNextReadySequential cfg s f = some nxt) :
    nxt ∈ cfg.tankIds ∧ s.state nxt = READY := by
  rw [findNextReady_eq_rot] at h
  obtain ⟨a, ha, hfa⟩ := List.exists_of_findSome?_eq_some h
  by_cases hr : s.state a = READY
  · rw [if_pos hr] at hfa
    cases hfa
    exact ⟨mem_of_mem_rotAfter ha, hr⟩
  · rw [if_neg hr] at hfa
    cases hfa

theorem tankIds_nodup (cfg : Cfg) : cfg.tankIds.Nodup := List.nodup_range' 1 cfg.numTanks

theorem tankIds_ne_zero {cfg : Cfg} {t : ℕ} (h : t ∈ cfg.tankIds) : t ≠ 0 := by
  have := List.mem_range'_1.mp h
  omega

/-! ## The empty-and-changeover consumption step (C2) -/

theorem consumeHour_empties (cfg : Cfg) (t1 t2 : ℚ) (s : Sim)
    (h1 : ¬ s.active = 0) (h2 : s.state s.active = FEEDING)
    (h3 : ¬ cfg.rateHour ≤ 0) (h4 : 0 < s.bbl s.active)
    (h5 : ¬ t2 - t1 < s.bbl s.active / cfg.rateHour) :
    (consumeHour cfg t1 t2 s).2.bbl s.active = 0 ∧
    (consumeHour cfg t1 t2 s).2.dailyConsumption s.active
      = s.dailyConsumption s.active + s.bbl s.active ∧
    (consumeHour cfg t1 t2 s).2.state s.active = EMPTY ∧
    (consumeHour cfg t1 t2 s).2.tankMix s.active = [] ∧
    (consumeHour cfg t1 t2 s).2.readyForFillAt s.active
      = some (t1 + s.bbl s.active / cfg.rateHour + cfg.tankGapHours) ∧
    (∃ l, (consumeHour cfg t1 t2 s).2.stateHistory
      = s.stateHistory
        ++ { t := t1 + s.bbl s.active / cfg.rateHour, tid := s.active, st := EMPTY } :: l) ∧
    (∃ l, (consumeHour cfg t1 t2 s).2.events
      = s.events
        ++ { t := t1 + s.bbl s.active / cfg.rateHour, code := "TANK_EMPTY",
             tank := some s.active } :: l) ∧
    (∀ nx, (rotAfter cfg.tankIds s.active).findSome?
          (fun x => if Function.update s.state s.active EMPTY x = READY
            then some x else none) = some nx →
      (consumeHour cfg t1 t2 s).2.active = nx ∧
      (consumeHour cfg t1 t2 s).2.state nx = FEEDING ∧
      (consumeHour cfg t1 t2 s).2.stateHistory
        = s.stateHistory
          ++ [{ t := t1 + s.bbl s.active / cfg.rateHour, tid := s.active, st := EMPTY },
              { t := t1 + s.bbl s.active / cfg.rateHour, tid := nx, st := FEEDING }] ∧
      (if 0 < t2 - t1 - s.bbl s.active / cfg.rateHour ∧ 0 < min (s.bbl nx) cfg.usable
       then (consumeHour cfg t1 t2 s).2.bbl nx
              = min (s.bbl nx) cfg.usable
                - min (cfg.rateHour * (t2 - t1 - s.bbl s.active / cfg.rateHour))
                    (min (s.bbl nx) cfg.usable) ∧
            (consumeHour cfg t1 t2 s).1
              = s.bbl s.active
                + min (cfg.rateHour * (t2 - t1 - s.bbl s.active / cfg.rateHour))
                    (min (s.bbl nx) cfg.usable)
       else (consumeHour cfg t1 t2 s).2.bbl nx = min (s.bbl nx) cfg.usable ∧
            (consumeHour cfg t1 t2 s).1 = s.bbl s.active)) ∧
    ((rotAfter cfg.tankIds s.active).findSome?
          (fun x => if Function.update s.state s.active EMPTY x = READY
            then some x else none) = none →
      (consumeHour cfg t1 t2 s).2.active = 0 ∧
      (consumeHour cfg t1 t2 s).1 = s.bbl s.active ∧
      (s.noFeedAlertLogged = false →
        (consumeHour cfg t1 t2 s).2.events
          = s.events
            ++ [{ t := t1 + s.bbl s.active / cfg.rateHour, code := "TANK_EMPTY",
                  tank := some s.active }]
            ++ (if 0 < cfg.tankGapHours
                then [{ t := t1 + s.bbl s.active / cfg.rateHour, code := "EMPTY_START",
                        tank := some s.active }] else [])
            ++ [{ t := t1 + s.bbl s.active / cfg.rateHour, code := "PROCESSING_HALT",
                  tank := none }] ∧
        (consumeHour cfg t1 t2 s).2.noFeedAlertLogged = true)) := by
  generalize hp : consumeHour cfg t1 t2 s = p
  unfold consumeHour at hp
  rw [if_neg (not_or.mpr ⟨h1, not_not_intro h2⟩), if_neg h3] at hp
  lift_lets at hp
  extract_lets avail tidE e1 e2 tte hlen takeL sL tE takeE c1 c2 c3 c4 c5 c6 c7 wh rem n0 nh at hp
  rw [if_neg (show ¬ avail ≤ 0 from not_le.mpr h4)] at hp
  rw [if_neg (show ¬ hlen < tte from h5)] at hp
  have hc7state : c7.state = Function.update s.state s.active EMPTY := by
    unfold_let c7
    split <;> rfl
  have h7bbl : c7.bbl = Function.update s.bbl s.active 0 := by
    unfold_let c7
    split <;> rfl
  have h7daily : c7.dailyConsumption
      = Function.update s.dailyConsumption s.active
          (s.dailyConsumption s.active + s.bbl s.active) := by
    unfold_let c7
    split <;> rfl
  have h7mix : c7.tankMix = Function.update s.tankMix s.active [] := by
    unfold_let c7
    split <;> rfl
  have h7ready : c7.readyForFillAt
      = Function.update s.readyForFillAt s.active
          (some (t1 + s.bbl s.active / cfg.rateHour + cfg.tankGapHours)) := by
    unfold_let c7
    split <;> rfl
  have h7hist : c7.stateHistory
      = s.stateHistory
        ++ [{ t := t1 + s.bbl s.active / cfg.rateHour, tid := s.active, st := EMPTY }] := by
    unfold_let c7
    split <;> rfl
  have h7nf : c7.noFeedAlertLogged = s.noFeedAlertLogged := by
    unfold_let c7
    split <;> rfl
  have h7ev : c7.events
      = s.events
        ++ [{ t := t1 + s.bbl s.active / cfg.rateHour, code := "TANK_EMPTY",
              tank := some s.active }]
        ++ (if 0 < cfg.tankGapHours
            then [{ t := t1 + s.bbl s.active / cfg.rateHour, code := "EMPTY_START",
                    tank := some s.active }] else []) := by
    unfold_let c7
    split
    · rfl
    · rw [List.append_nil]; rfl
  split at hp
  next nxt heq =>
    rw [findNextReady_eq_rot] at heq
    simp only [hc7state] at heq
    unfold_let tidE at heq
    have hup : Function.update s.state s.active EMPTY nxt = READY := by
      obtain ⟨a, ha, hfa⟩ := List.exists_of_findSome?_eq_some heq
      by_cases hr : Function.update s.state s.active EMPTY a = READY
      · rw [if_pos hr] at hfa
        injection hfa with h
        rw [← h]
        exact hr
      · rw [if_neg hr] at hfa
        cases hfa
    have hnx : ¬ nxt = s.active := by
      intro he
      rw [he, Function.update_same] at hup
      exact absurd hup (by decide)
    have hxn : ¬ s.active = nxt := fun he => hnx he.symm
    lift_lets at hp
    extract_lets d1 d2 d3 d4 dR d5 d6 d7 add dS at hp
    have hd7bbl : d7.bbl = Function.update c7.bbl nxt (min (c7.bbl nxt) cfg.usable) := by
      unfold_let d7 d6 d5
      split <;> rfl
    have hd7daily : d7.dailyConsumption = c7.dailyConsumption := by
      unfold_let d7 d6 d5
      split <;> rfl
    have hd7state : d7.state = Function.update c7.state nxt FEEDING := by
      unfold_let d7 d6 d5
      split <;> rfl
    have hd7mix : d7.tankMix = c7.tankMix := by
      unfold_let d7 d6 d5
      split <;> rfl
    have hd7ready : d7.readyForFillAt = c7.readyForFillAt := by
      unfold_let d7 d6 d5
      split <;> rfl
    have hd7active : d7.active = nxt := by
      unfold_let d7 d6 d5
      split <;> rfl
    have hd7hist : d7.stateHistory
        = c7.stateHistory
          ++ [{ t := t1 + s.bbl s.active / cfg.rateHour, tid := nxt, st := FEEDING }] := by
      unfold_let d7 d6 d5
      split <;> rfl
    have hd5ev : d5.events
        = c7.events
          ++ (if wh = true
              then [{ t := t1 + s.bbl s.active / cfg.rateHour, code := "PROCESSING_RESUME",
                      tank := none }] else []) := by
      unfold_let d5
      split
      · rfl
      · rw [List.append_nil]
    have hd7ev : d7.events
        = d5.events
          ++ [{ t := t1 + s.bbl s.active / cfg.rateHour, code := "FEED_CHANGEOVER",
                tank := some nxt }] := rfl
    have hBnxt : d7.bbl nxt = min (s.bbl nxt) cfg.usable := by
      rw [hd7bbl, Function.update_same, h7bbl, Function.update_noteq hnx]
    by_cases hdr : 0 < rem ∧ 0 < d7.bbl nxt
    · rw [if_pos hdr] at hp
      rw [← hp]
      refine ⟨?_, ?_, ?_, ?_, ?_, ?_, ?_, ?_, ?_⟩
      · show dS.bbl s.active = 0
        rw [show dS.bbl = Function.update d7.bbl nxt (d7.bbl nxt - add) from rfl,
          Function.update_noteq hxn, hd7bbl, Function.update_noteq hxn, h7bbl,
          Function.update_same]
      · show dS.dailyConsumption s.active = _
        rw [show dS.dailyConsumption
            = Function.update d7.dailyConsumption nxt (d7.dailyConsumption nxt + add)
            from rfl,
          Function.update_noteq hxn, hd7daily, h7daily, Function.update_same]
      · show d7.state s.active = EMPTY
        rw [hd7state, Function.update_noteq hxn, hc7state, Function.update_same]
      · show d7.tankMix s.active = []
        rw [hd7mix, h7mix, Function.update_same]
      · show d7.readyForFillAt s.active = _
        rw [hd7ready, h7ready, Function.update_same]
      · refine ⟨[{ t := t1 + s.bbl s.active / cfg.rateHour, tid := nxt, st := FEEDING }], ?_⟩
        show d7.stateHistory = _
        rw [hd7hist, h7hist, List.append_assoc]; rfl
      · refine ⟨(if 0 < cfg.tankGapHours
            then [{ t := t1 + s.bbl s.active / cfg.rateHour, code := "EMPTY_START",
                    tank := some s.active }] else [])
          ++ ((if wh = true
              then [{ t := t1 + s.bbl s.active / cfg.rateHour, code := "PROCESSING_RESUME",
                      tank := none }] else [])
            ++ [{ t := t1 + s.bbl s.active / cfg.rateHour, code := "FEED_CHANGEOVER",
                  tank := some nxt }]), ?_⟩
        show d7.events = _
        rw [hd7ev, hd5ev, h7ev]
        simp only [List.append_assoc, List.cons_append, List.nil_append]
      · intro nx hfind
        rw [heq] at hfind
        injection hfind with hinj
        subst hinj
        refine ⟨?_, ?_, ?_, ?_⟩
        · show d7.active = nxt
          exact hd7active
        · show d7.state nxt = FEEDING
          rw [hd7state, Function.update_same]
        · show d7.stateHistory = _
          rw [hd7hist, h7hist, List.append_assoc]; rfl
        · rw [if_pos (show _ ∧ _ from ⟨hdr.1, hBnxt ▸ hdr.2⟩)]
          constructor
          · show dS.bbl nxt = _
            rw [show dS.bbl = Function.update d7.bbl nxt (d7.bbl nxt - add) from rfl,
              Function.update_same,
              show add = min (cfg.rateHour * rem) (d7.bbl nxt) from rfl, hBnxt]
          · show takeE + add = _
            rw [show add = min (cfg.rateHour * rem) (d7.bbl nxt) from rfl, hBnxt]
      · intro hnone
        rw [heq] at hnone
        simp at hnone
    · rw [if_neg hdr] at hp
      rw [← hp]
      refine ⟨?_, ?_, ?_, ?_, ?_, ?_, ?_, ?_, ?_⟩
      · show d7.bbl s.active = 0
        rw [hd7bbl, Function.update_noteq hxn, h7bbl, Function.update_same]
      · show d7.dailyConsumption s.active = _
        rw [hd7daily, h7daily, Function.update_same]
      · show d7.state s.active = EMPTY
        rw [hd7state, Function.update_noteq hxn, hc7state, Function.update_same]
      · show d7.tankMix s.active = []
        rw [hd7mix, h7mix, Function.update_same]
      · show d7.readyForFillAt s.active = _
        rw [hd7ready, h7ready, Function.update_same]
      · refine ⟨[{ t := t1 + s.bbl s.active / cfg.rateHour, tid := nxt, st := FEEDING }], ?_⟩
        show d7.stateHistory = _
        rw [hd7hist, h7hist, List.append_assoc]; rfl
      · refine ⟨(if 0 < cfg.tankGapHours
            then [{ t := t1 + s.bbl s.active / cfg.rateHour, code := "EMPTY_START",
                    tank := some s.active }] else [])
          ++ ((if wh = true
              then [{ t := t1 + s.bbl s.active / cfg.rateHour, code := "PROCESSING_RESUME",
                      tank := none }] else [])
            ++ [{ t := t1 + s.bbl s.active / cfg.rateHour, code := "FEED_CHANGEOVER",
                  tank := some nxt }]), ?_⟩
        show d7.events = _
        rw [hd7ev, hd5ev, h7ev]
        simp only [List.append_assoc, List.cons_append, List.nil_append]
      · intro nx hfind
        rw [heq] at hfind
        injection hfind with hinj
        subst hinj
        refine ⟨hd7active, ?_, ?_, ?_⟩
        · show d7.state nxt = FEEDING
          rw [hd7state, Function.update_same]
        · show d7.stateHistory = _
          rw [hd7hist, h7hist, List.append_assoc]; rfl
        · rw [if_neg (show ¬ (_ ∧ _) from fun hc => hdr ⟨hc.1, hBnxt ▸ hc.2⟩)]
          exact ⟨hBnxt, rfl⟩
      · intro hnone
        rw [heq] at hnone
        simp at hnone
  next heq =>
    rw [findNextReady_eq_rot] at heq
    simp only [hc7state] at heq
    unfold_let tidE at heq
    split at hp
    next hcA =>
      rw [← hp]
      refine ⟨?_, ?_, ?_, ?_, ?_, ?_, ?_, ?_, ?_⟩
      · show nh.bbl s.active = 0
        rw [show nh.bbl = c7.bbl from rfl, h7bbl, Function.update_same]
      · show nh.dailyConsumption s.active = _
        rw [show nh.dailyConsumption = c7.dailyConsumption from rfl, h7daily,
          Function.update_same]
      · show nh.state s.active = EMPTY
        rw [show nh.state = c7.state from rfl, hc7state, Function.update_same]
      · show nh.tankMix s.active = []
        rw [show nh.tankMix = c7.tankMix from rfl, h7mix, Function.update_same]
      · show nh.readyForFillAt s.active = _
        rw [show nh.readyForFillAt = c7.readyForFillAt from rfl, h7ready,
          Function.update_same]
      · refine ⟨[], ?_⟩
        show nh.stateHistory = _
        rw [show nh.stateHistory = c7.stateHistory from rfl, h7hist]
      · refine ⟨(if 0 < cfg.tankGapHours
            then [{ t := t1 + s.bbl s.active / cfg.rateHour, code := "EMPTY_START",
                    tank := some s.active }] else [])
          ++ [{ t := t1 + s.bbl s.active / cfg.rateHour, code := "PROCESSING_HALT",
                tank := none }], ?_⟩
        show nh.events = _
        rw [show nh.events
            = c7.events
              ++ [{ t := t1 + s.bbl s.active / cfg.rateHour, code := "PROCESSING_HALT",
                    tank := none }] from rfl, h7ev]
        simp only [List.append_assoc, List.cons_append, List.nil_append]
      · intro nx hfind
        rw [heq] at hfind
        simp at hfind
      · intro _
        refine ⟨rfl, rfl, fun hnf => ⟨?_, rfl⟩⟩
        show nh.events = _
        rw [show nh.events
            = c7.events
              ++ [{ t := t1 + s.bbl s.active / cfg.rateHour, code := "PROCESSING_HALT",
                    tank := none }] from rfl, h7ev]
    next hcB =>
      have hT : s.noFeedAlertLogged = true := by
        have := not_not.mp hcB
        rw [show n0.noFeedAlertLogged = c7.noFeedAlertLogged from rfl, h7nf] at this
        exact this
      rw [← hp]
      refine ⟨?_, ?_, ?_, ?_, ?_, ?_, ?_, ?_, ?_⟩
      · show c7.bbl s.active = 0
        rw [h7bbl, Function.update_same]
      · show c7.dailyConsumption s.active = _
        rw [h7daily, Function.update_same]
      · show c7.state s.active = EMPTY
        rw [hc7state, Function.update_same]
      · show c7.tankMix s.active = []
        rw [h7mix, Function.update_same]
      · show c7.readyForFillAt s.active = _
        rw [h7ready, Function.update_same]
      · refine ⟨[], ?_⟩
        show c7.stateHistory = _
        rw [h7hist]
      · refine ⟨(if 0 < cfg.tankGapHours
            then [{ t := t1 + s.bbl s.active / cfg.rateHour, code := "EMPTY_START",
                    tank := some s.active }] else []), ?_⟩
        show c7.events = _
        rw [h7ev]
        simp only [List.append_assoc, List.cons_append, List.nil_append]
      · intro nx hfind
        rw [heq] at hfind
        simp at hfind
      · intro _
        refine ⟨rfl, rfl, fun hnf => ?_⟩
        rw [hnf] at hT
        exact absurd hT (by decide)

set_option maxRecDepth 8000 in
unseal Rat.add Rat.sub Rat.mul Rat.inv Rat.ofScientific in
theorem scenarioA_tank_empties_at_192 :
    (initSim scenarioACfg).stateHistory = [{ t := 0, tid := 1, st := FEEDING }] ∧
    (initSim scenarioACfg).active = 1 ∧
    (initSim scenarioACfg).bbl 1 = 400000 ∧
    scenarioACfg.rateHour = 50000 / 24 ∧
    (0 : ℚ) + 400000 / (50000 / 24) = 192 ∧
    (consumeHour scenarioACfg 0 192 (initSim scenarioACfg)).2.stateHistory
      = [{ t := 0, tid := 1, st := FEEDING }, { t := 192, tid := 1, st := EMPTY }] ∧
    (consumeHour scenarioACfg 0 192 (initSim scenarioACfg)).2.events
      = (initSim scenarioACfg).events
        ++ [{ t := 192, code := "TANK_EMPTY", tank := some 1 },
            { t := 192, code := "PROCESSING_HALT", tank := none }] ∧
    (consumeHour scenarioACfg 0 192 (initSim scenarioACfg)).2.state 1 = EMPTY ∧
    (consumeHour scenarioACfg 0 192 (initSim scenarioACfg)).2.bbl 1 = 0 ∧
    (consumeHour scenarioACfg 0 192 (initSim scenarioACfg)).2.active = 0 := by
  refine ⟨?_, ?_, ?_, ?_, ?_, ?_, ?_, ?_, ?_, ?_⟩ <;> decide

/-- C2: for a consumption step over [t1, t2] whose feeding tank's
hours-to-empty is at most the step length, _consume_hour deducts the tank's
full remaining volume, moves it to EMPTY at the exact computed empty time
t1 + volume/rate (not at the step boundary), clears its crude mix, arms its
ready-for-fill-at timer at empty time plus the tank gap, then switches to the
next READY tank in sequential wrap-around id order (the order _find_next_ready
_sequential scans, second conjunct) at the exact empty time and drains it at
the fixed rate for the remainder of the step, or sets the plant inactive and
logs PROCESSING_HALT when no READY tank exists; in Scenario A (one tank of
400,000 bbl usable at 50,000 bbl/day, no cargo) the tank empties exactly 192
hours after simulation start, logging TANK_EMPTY at 192 with PROCESSING_HALT
immediately after. -/
theorem claim_C2_consume_hour_empty_transition :
    (∀ (cfg : Cfg) (t1 t2 : ℚ) (s : Sim),
      ¬ s.active = 0 → s.state s.active = FEEDING → ¬ cfg.rateHour ≤ 0 →
      0 < s.bbl s.active → ¬ t2 - t1 < s.bbl s.active / cfg.rateHour →
      (consumeHour cfg t1 t2 s).2.bbl s.active = 0 ∧
      (consumeHour cfg t1 t2 s).2.dailyConsumption s.active
        = s.dailyConsumption s.active + s.bbl s.active ∧
      (consumeHour cfg t1 t2 s).2.state s.active = EMPTY ∧
      (consumeHour cfg t1 t2 s).2.tankMix s.active = [] ∧
      (consumeHour cfg t1 t2 s).2.readyForFillAt s.active
        = some (t1 + s.bbl s.active / cfg.rateHour + cfg.tankGapHours) ∧
      (∃ l, (consumeHour cfg t1 t2 s).2.stateHistory
        = s.stateHistory
          ++ { t := t1 + s.bbl s.active / cfg.rateHour, tid := s.active, st := EMPTY } :: l) ∧
      (∃ l, (consumeHour cfg t1 t2 s).2.events
        = s.events
          ++ { t := t1 + s.bbl s.active / cfg.rateHour, code := "TANK_EMPTY",
               tank := some s.active } :: l) ∧
      (∀ nx, (rotAfter cfg.tankIds s.active).findSome?
            (fun x => if Function.update s.state s.active EMPTY x = READY
              then some x else none) = some nx →
        (consumeHour cfg t1 t2 s).2.active = nx ∧
        (consumeHour cfg t1 t2 s).2.state nx = FEEDING ∧
        (consumeHour cfg t1 t2 s).2.stateHistory
          = s.stateHistory
            ++ [{ t := t1 + s.bbl s.active / cfg.rateHour, tid := s.active, st := EMPTY },
                { t := t1 + s.bbl s.active / cfg.rateHour, tid := nx, st := FEEDING }] ∧
        (if 0 < t2 - t1 - s.bbl s.active / cfg.rateHour ∧ 0 < min (s.bbl nx) cfg.usable
         then (consumeHour cfg t1 t2 s).2.bbl nx
                = min (s.bbl nx) cfg.usable
                  - min (cfg.rateHour * (t2 - t1 - s.bbl s.active / cfg.rateHour))
                      (min (s.bbl nx) cfg.usable) ∧
              (consumeHour cfg t1 t2 s).1
                = s.bbl s.active
                  + min (cfg.rateHour * (t2 - t1 - s.bbl s.active / cfg.rateHour))
                      (min (s.bbl nx) cfg.usable)
         else (consumeHour cfg t1 t2 s).2.bbl nx = min (s.bbl nx) cfg.usable ∧
              (consumeHour cfg t1 t2 s).1 = s.bbl s.active)) ∧
      ((rotAfter cfg.tankIds s.active).findSome?
            (fun x => if Function.update s.state s.active EMPTY x = READY
              then some x else none) = none →
        (consumeHour cfg t1 t2 s).2.active = 0 ∧
        (consumeHour cfg t1 t2 s).1 = s.bbl s.active ∧
        (s.noFeedAlertLogged = false →
          (consumeHour cfg t1 t2 s).2.events
            = s.events
              ++ [{ t := t1 + s.bbl s.active / cfg.rateHour, code := "TANK_EMPTY",
                    tank := some s.active }]
              ++ (if 0 < cfg.tankGapHours
                  then [{ t := t1 + s.bbl s.active / cfg.rateHour, code := "EMPTY_START",
                          tank := some s.active }] else [])
              ++ [{ t := t1 + s.bbl s.active / cfg.rateHour, code := "PROCESSING_HALT",
                    tank := none }] ∧
          (consumeHour cfg t1 t2 s).2.noFeedAlertLogged = true))) ∧
    (∀ (cfg : Cfg) (s : Sim) (f : ℕ),
      findNextReadySequential cfg s f
        = (rotAfter cfg.tankIds f).findSome?
            (fun tid => if s.state tid = READY then some tid else none)) ∧
    ((initSim scenarioACfg).stateHistory = [{ t := 0, tid := 1, st := FEEDING }] ∧
     (initSim scenarioACfg).active = 1 ∧
     (initSim scenarioACfg).bbl 1 = 400000 ∧
     scenarioACfg.rateHour = 50000 / 24 ∧
     (0 : ℚ) + 400000 / (50000 / 24) = 192 ∧
     (consumeHour scenarioACfg 0 192 (initSim scenarioACfg)).2.stateHistory
       = [{ t := 0, tid := 1, st := FEEDING }, { t := 192, tid := 1, st := EMPTY }] ∧
     (consumeHour scenarioACfg 0 192 (initSim scenarioACfg)).2.events
       = (initSim scenarioACfg).events
         ++ [{ t := 192, code := "TANK_EMPTY", tank := some 1 },
             { t := 192, code := "PROCESSING_HALT", tank := none }] ∧
     (consumeHour scenarioACfg 0 192 (initSim scenarioACfg)).2.state 1 = EMPTY ∧
     (consumeHour scenarioACfg 0 192 (initSim scenarioACfg)).2.bbl 1 = 0 ∧
     (consumeHour scenarioACfg 0 192 (initSim scenarioACfg)).2.active = 0) :=
  ⟨fun cfg t1 t2 s hA hF hR hB hT => consumeHour_empties cfg t1 t2 s hA hF hR hB hT,
   fun cfg s f => findNextReady_eq_rot cfg s f,
   scenarioA_tank_empties_at_192⟩

set_option maxRecDepth 8000 in
unseal Rat.add Rat.sub Rat.mul Rat.inv Rat.ofScientific in
theorem claim_C2_witness :
    (¬ (initSim scenarioACfg).active = 0) ∧
    (initSim scenarioACfg).state (initSim scenarioACfg).active = FEEDING ∧
    (¬ scenarioACfg.rateHour ≤ 0) ∧
    (0 < (initSim scenarioACfg).bbl (initSim scenarioACfg).active) ∧
    (¬ (192 : ℚ) - 0 < (initSim scenarioACfg).bbl (initSim scenarioACfg).active
        / scenarioACfg.rateHour) ∧
    (consumeHour scenarioACfg 0 192 (initSim scenarioACfg)).2.bbl
        (initSim scenarioACfg).active = 0 ∧
    (consumeHour scenarioACfg 0 192 (initSim scenarioACfg)).2.state
        (initSim scenarioACfg).active = EMPTY :=
  ⟨by decide, by decide, by decide, by decide, by decide,
   (claim_C2_consume_hour_empty_transition.1 scenarioACfg 0 192 (initSim scenarioACfg)
     (by decide) (by decide) (by decide) (by decide) (by decide)).1,
   (claim_C2_consume_hour_empty_transition.1 scenarioACfg 0 192 (initSim scenarioACfg)
     (by decide) (by decide) (by decide) (by decide) (by decide)).2.2.1⟩

/-! ## The single-feeder invariant (C1) -/

theorem foldl_pres {α β : Type} (P : β → Prop) (f : β → α → β) :
    ∀ (L : List α), (∀ b a, a ∈ L → P b → P (f b a)) → ∀ b, P b → P (L.foldl f b) := by
  intro L
  induction L with
  | nil => intro _ b hb; exact hb
  | cons x t ih =>
    intro hf b hb
    exact ih (fun b a ha => hf b a (List.mem_cons_of_mem x ha)) (f b x)
      (hf b x (List.mem_cons_self x t) hb)

theorem feedTracker_append (f : Option ℕ) (h₁ h₂ : List HE) :
    feedTracker f (h₁ ++ h₂) = feedTracker (feedTracker f h₁) h₂ :=
  List.foldl_append feedStep f h₁ h₂

theorem feedTracker_one (f : Option ℕ) (e : HE) : feedTracker f [e] = feedStep f e := rfl

theorem wellFed_append (f : Option ℕ) (h : List HE) (e : HE) :
    WellFed f (h ++ [e]) ↔ WellFed f h ∧ (e.st = FEEDING → feedTracker f h = none) := by
  induction h generalizing f with
  | nil =>
    simp only [List.nil_append, WellFed, feedTracker, List.foldl_nil, true_and, and_true]
  | cons a t ih =>
    simp only [List.cons_append, WellFed]
    constructor
    · rintro ⟨hc, hw⟩
      obtain ⟨hw1, hw2⟩ := (ih (feedStep f a)).mp hw
      exact ⟨⟨hc, hw1⟩, hw2⟩
    · rintro ⟨⟨hc, hw1⟩, hw2⟩
      exact ⟨hc, (ih (feedStep f a)).mpr ⟨hw1, hw2⟩⟩

theorem feedStep_nonfeed (x : Option ℕ) (e : HE) (h : ¬ e.st = FEEDING) :
    feedStep x e = if x = some e.tid then none else x := by
  unfold feedStep
  rw [if_neg h]

theorem feedInv_congr {s s' : Sim} (h1 : s'.state = s.state) (h2 : s'.active = s.active)
    (h3 : s'.stateHistory = s.stateHistory) (h : FeedInv s) : FeedInv s' := by
  unfold FeedInv at h ⊢
  rw [h1, h2, h3]
  exact h

theorem feedInv_changeState_nonfeed {s : Sim} (tid : ℕ) (w : ℚ) (ns : TState)
    (hns : ¬ ns = FEEDING) (h : FeedInv s) : FeedInv (changeState tid ns w s) := by
  obtain ⟨h1, h2, h3⟩ := h
  refine ⟨?_, ?_, ?_⟩
  · show ∀ x, Function.update s.state tid ns x = FEEDING → x = s.active ∧ s.active ≠ 0
    intro x hx
    by_cases hxt : x = tid
    · subst hxt
      rw [Function.update_same] at hx
      exact absurd hx hns
    · rw [Function.update_noteq hxt] at hx
      exact h1 x hx
  · show feedTracker none (s.stateHistory ++ [{ t := w, tid := tid, st := ns }])
        = if s.active ≠ 0 ∧ Function.update s.state tid ns s.active = FEEDING
          then some s.active else none
    rw [feedTracker_append, h2, feedTracker_one, feedStep_nonfeed _ _ hns]
    by_cases hc : s.active ≠ 0 ∧ s.state s.active = FEEDING
    · rw [if_pos hc]
      by_cases htid : tid = s.active
      · subst htid
        rw [if_pos rfl, if_neg]
        rintro ⟨-, hf⟩
        rw [Function.update_same] at hf
        exact hns hf
      · rw [if_neg (fun hh => htid (Option.some.inj hh).symm), if_pos]
        exact ⟨hc.1, by rw [Function.update_noteq (fun hh => htid hh.symm)]; exact hc.2⟩
    · rw [if_neg hc]
      rw [if_neg (fun hh => Option.noConfusion hh), if_neg]
      rintro ⟨ha0, hf⟩
      by_cases htid : s.active = tid
      · rw [htid, Function.update_same] at hf
        exact hns hf
      · rw [Function.update_noteq htid] at hf
        exact hc ⟨ha0, hf⟩
  · show WellFed none (s.stateHistory ++ [{ t := w, tid := tid, st := ns }])
    exact (wellFed_append none s.stateHistory _).mpr ⟨h3, fun hfe => absurd hfe hns⟩

theorem feedInv_changeState_feed {s : Sim} (w : ℚ) (a : ℕ) (ha : s.active = a)
    (ha0 : a ≠ 0) (hnofeed : ∀ x, ¬ s.state x = FEEDING) (h : FeedInv s) :
    FeedInv (changeState a FEEDING w s) := by
  obtain ⟨h1, h2, h3⟩ := h
  have htr : feedTracker none s.stateHistory = none := by
    rw [h2, if_neg]
    rintro ⟨-, hf⟩
    exact hnofeed _ hf
  refine ⟨?_, ?_, ?_⟩
  · show ∀ x, Function.update s.state a FEEDING x = FEEDING → x = s.active ∧ s.active ≠ 0
    intro x hx
    by_cases hxa : x = a
    · subst hxa
      exact ⟨ha.symm, by rw [ha]; exact ha0⟩
    · rw [Function.update_noteq hxa] at hx
      exact absurd hx (hnofeed x)
  · show feedTracker none (s.stateHistory ++ [{ t := w, tid := a, st := FEEDING }])
        = if s.active ≠ 0 ∧ Function.update s.state a FEEDING s.active = FEEDING
          then some s.active else none
    rw [feedTracker_append, htr, feedTracker_one]
    have hstep : feedStep none { t := w, tid := a, st := FEEDING } = some a := by
      unfold feedStep
      rw [if_pos rfl]
    rw [hstep, if_pos]
    · rw [ha]
    · subst ha
      exact ⟨ha0, by rw [Function.update_same]⟩
  · show WellFed none (s.stateHistory ++ [{ t := w, tid := a, st := FEEDING }])
    exact (wellFed_append none s.stateHistory _).mpr ⟨h3, fun _ => htr⟩

theorem feedInv_set_active {s : Sim} (a : ℕ) (hnofeed : ∀ x, ¬ s.state x = FEEDING)
    (h : FeedInv s) : FeedInv { s with active := a } := by
  obtain ⟨-, h2, h3⟩ := h
  refine ⟨?_, ?_, h3⟩
  · intro x hx
    exact absurd hx (hnofeed x)
  · show feedTracker none s.stateHistory = if a ≠ 0 ∧ s.state a = FEEDING then some a else none
    rw [h2, if_neg, if_neg]
    · rintro ⟨-, hf⟩
      exact hnofeed a hf
    · rintro ⟨-, hf⟩
      exact hnofeed s.active hf

theorem feedInv_nofeed {s : Sim} (h : FeedInv s)
    (hcond : ¬ (s.active ≠ 0 ∧ s.state s.active = FEEDING)) :
    ∀ x, ¬ s.state x = FEEDING := by
  intro x hx
  obtain ⟨hx1, hx2⟩ := h.1 x hx
  subst hx1
  exact hcond ⟨hx2, hx⟩

theorem feedInv_scheduleBerth (cfg : Cfg) (w : ℚ) (b : ℕ) {s : Sim} (h : FeedInv s) :
    FeedInv (scheduleBerthStandard cfg w s b) := by
  unfold scheduleBerthStandard popRand popChoice
  lift_lets
  extract_lets berth gs gap s0 readyCount cont availableTypes
  by_cases hfree : berth.currentCargo = none ∧ berth.freeAt ≤ w
  · rw [if_pos hfree]
    have hs0 : FeedInv s0 := by
      unfold_let s0 gs
      rcases hr : s.rng with _ | ⟨r, rrest⟩
      · simp only [hr]
        exact h
      · simp only [hr]
        exact feedInv_congr rfl rfl rfl h
    rcases hcont : cont with _ | ⟨arrival, s1p⟩
    · simp only [hcont]
      exact hs0
    · simp only [hcont]
      have hs' : FeedInv s1p := by
        have heq := hcont
        unfold_let cont at heq
        split at heq
        · split at heq
          · rw [Option.some.injEq, Prod.mk.injEq] at heq
            rw [← heq.2]
            exact feedInv_congr rfl rfl rfl hs0
          · cases heq
        · split at heq
          · cases heq
          · split at heq
            · rw [Option.some.injEq, Prod.mk.injEq] at heq
              rw [← heq.2]
              exact hs0
            · rw [Option.some.injEq, Prod.mk.injEq] at heq
              rw [← heq.2]
              exact hs0
      split
      · exact hs'
      · rcases hrc : s1p.rngChoice with _ | ⟨x, rcrest⟩
        · simp only [hrc]
          exact feedInv_congr rfl rfl rfl hs'
        · simp only [hrc]
          exact feedInv_congr rfl rfl rfl hs' 
  · rw [if_neg hfree]
    exact h

theorem feedInv_startFillForCargo (cfg : Cfg) (w : ℚ) (v : String) {s : Sim}
    (h : FeedInv s) : FeedInv (startFillForCargo cfg w s v) := by
  unfold startFillForCargo
  split
  · exact h
  · split
    · exact h
    · split
      · exact h
      · split
        · exact h
        · split
          · exact h
          next tid fromInitial heq =>
            lift_lets
            extract_lets sA vol sB et sC es sD
            have hA : FeedInv sA := by
              unfold_let sA
              split
              · exact feedInv_congr rfl rfl rfl h
              · exact h
            have hC : FeedInv sC := feedInv_congr rfl rfl rfl hA
            have hD : FeedInv sD := by
              unfold_let sD es
              split
              · exact feedInv_changeState_nonfeed _ _ _ (by decide) hC
              · exact feedInv_changeState_nonfeed _ _ _ (by decide)
                  (feedInv_congr rfl rfl rfl hC)
            exact feedInv_congr rfl rfl rfl hD

theorem feedInv_maybeStartFill (cfg : Cfg) (w : ℚ) {s : Sim} (h : FeedInv s) :
    FeedInv (maybeStartFill cfg w s) := by
  unfold maybeStartFill
  exact foldl_pres FeedInv (startFillForCargo cfg w) _
    (fun b a _ hb => feedInv_startFillForCargo cfg w a hb) s h

theorem feedInv_finishOneFill (cfg : Cfg) (w : ℚ) (acc : Sim × List String)
    (e : String × ℕ × ℚ × ℚ × ℚ) (h : FeedInv acc.1) :
    FeedInv (finishOneFill cfg w acc e).1 := by
  unfold finishOneFill
  lift_lets
  extract_lets s0 fin vn tid et vol nv s14 itf ev s13 s12 s11 se s10 s9 s8 s7 s6 s5 fs s4 fin2 s3 s2 s1 sfin
  split
  · exact h
  · have h14 : FeedInv s14 := feedInv_congr rfl rfl rfl h
    have h13 : FeedInv s13 := by
      unfold_let s13
      split
      · exact feedInv_changeState_nonfeed _ _ _ (by decide) h14
      · exact h14
    have h12 : FeedInv s12 := feedInv_congr rfl rfl rfl h13
    have h11 : FeedInv s11 := feedInv_changeState_nonfeed _ _ _ (by decide) h12
    have h10 : FeedInv s10 := feedInv_congr rfl rfl rfl h12
    have h9 : FeedInv s9 := feedInv_changeState_nonfeed _ _ _ (by decide) h10
    have h8 : FeedInv s8 := feedInv_congr rfl rfl rfl h9
    have h7 : FeedInv s7 := by
      unfold_let s7
      split
      · exact feedInv_congr rfl rfl rfl h11
      · split
        · exact feedInv_congr rfl rfl rfl h8
        · exact feedInv_congr rfl rfl rfl h8
    have h5 : FeedInv s5 := feedInv_congr rfl rfl rfl h7
    have h4 : FeedInv s4 := by
      unfold_let s4 fs
      split
      · exact feedInv_congr rfl rfl rfl h5
      · exact h5
    have h3 : FeedInv s3 := feedInv_congr rfl rfl rfl h4
    have h1 : FeedInv s1 := by
      unfold_let s1
      split
      · exact feedInv_congr rfl rfl rfl h3
      · exact feedInv_congr rfl rfl rfl h3
    have hfin : FeedInv sfin := by
      unfold_let sfin
      split
      · exact feedInv_maybeStartFill cfg _ h1
      · exact h3
    exact hfin

theorem feedInv_maybeFinishFill (cfg : Cfg) (w : ℚ) {s : Sim} (h : FeedInv s) :
    FeedInv (maybeFinishFill cfg w s) := by
  unfold maybeFinishFill
  have hfold : FeedInv ((s.activeFills.foldl (finishOneFill cfg w) (s, [])).1) :=
    foldl_pres (fun x : Sim × List String => FeedInv x.1) (finishOneFill cfg w) _
      (fun b a _ hb => feedInv_finishOneFill cfg w b a hb) (s, []) h
  refine foldl_pres FeedInv _ _ ?_ _ hfold
  intro b a _ hb
  dsimp only
  split
  · exact hb
  · apply feedInv_scheduleBerth
    apply feedInv_scheduleBerth
    exact feedInv_congr rfl rfl rfl hb

theorem feedInv_ensureFeeding (cfg : Cfg) (w : ℚ) {s : Sim} (h : FeedInv s) :
    FeedInv (ensureFeeding cfg w s) := by
  unfold ensureFeeding
  split
  · exact h
  next hcond =>
    have hnofeed := feedInv_nofeed h hcond
    split
    next nxt heq =>
      obtain ⟨hmem, -⟩ := findNextReady_some heq
      lift_lets
      extract_lets wh s1 s2 s3 s4 s5 sR s6
      have h1 : FeedInv s1 := feedInv_set_active nxt hnofeed h
      have h2 : FeedInv s2 :=
        feedInv_changeState_feed w nxt rfl (tankIds_ne_zero hmem) hnofeed h1
      have h5 : FeedInv s5 := feedInv_congr rfl rfl rfl h2
      have h6 : FeedInv s6 := by
        unfold_let s6
        split
        · exact feedInv_congr rfl rfl rfl h5
        · exact h5
      exact feedInv_congr rfl rfl rfl h6
    next heq =>
      split
      · exact feedInv_congr rfl rfl rfl h
      · exact h

theorem feedInv_consumeHour (cfg : Cfg) (t1 t2 : ℚ) {s : Sim} (h : FeedInv s) :
    FeedInv (consumeHour cfg t1 t2 s).2 := by
  unfold consumeHour
  split
  · exact h
  next hcond =>
    split
    · exact h
    · lift_lets
      extract_lets avail tidE e1 e2 tte hlen takeL sL tE takeE c1 c2 c3 c4 c5 c6 c7 wh rem n0 nh
      by_cases hc3 : avail ≤ 0
      · rw [if_pos hc3]
        exact feedInv_congr rfl rfl rfl (feedInv_changeState_nonfeed _ _ _ (by decide) h)
      · rw [if_neg hc3]
        by_cases hc4 : hlen < tte
        · rw [if_pos hc4]
          exact feedInv_congr rfl rfl rfl h
        · rw [if_neg hc4]
          have hc4i : FeedInv c4 := feedInv_changeState_nonfeed _ _ _ (by decide)
            (feedInv_congr rfl rfl rfl h)
          have hc7i : FeedInv c7 := by
            unfold_let c7
            split
            · exact feedInv_congr rfl rfl rfl hc4i
            · exact feedInv_congr rfl rfl rfl hc4i
          have hno7 : ∀ x, ¬ c7.state x = FEEDING := by
            intro x
            unfold_let c7
            split
            all_goals
              intro hx
              have hx' : Function.update s.state tidE EMPTY x = FEEDING := hx
              by_cases hxa : x = tidE
              · rw [hxa, Function.update_same] at hx'
                cases hx'
              · rw [Function.update_noteq hxa] at hx'
                exact hxa (h.1 x hx').1
          split
          next nxt heq =>
            obtain ⟨hmem, -⟩ := findNextReady_some heq
            lift_lets
            extract_lets d1 d2 d3 d4 dR d5 d6 d7 add dS
            have hd1 : FeedInv d1 := feedInv_set_active nxt hno7 hc7i
            have hd4 : FeedInv d4 := feedInv_congr rfl rfl rfl hd1
            have hd5 : FeedInv d5 := by
              unfold_let d5
              split
              · exact feedInv_congr rfl rfl rfl hd4
              · exact hd4
            have hact5 : d5.active = nxt := by
              unfold_let d5
              split
              · rfl
              · rfl
            have hno5 : ∀ x, ¬ d5.state x = FEEDING := by
              intro x
              unfold_let d5
              split
              · exact fun hx => hno7 x hx
              · exact fun hx => hno7 x hx
            have hd6 : FeedInv d6 :=
              feedInv_changeState_feed tE nxt hact5 (tankIds_ne_zero hmem) hno5 hd5
            have hd7 : FeedInv d7 := feedInv_congr rfl rfl rfl hd6
            split
            · exact feedInv_congr rfl rfl rfl hd7
            · exact feedInv_congr rfl rfl rfl hd7
          next heq =>
            have hn0 : FeedInv n0 := feedInv_set_active 0 hno7 hc7i
            split
            · exact feedInv_congr rfl rfl rfl hn0
            · exact hn0

theorem feedInv_promoteTank (cfg : Cfg) (w : ℚ) {s : Sim} (i : ℕ) (h : FeedInv s) :
    FeedInv (promoteTank cfg w s i) := by
  unfold promoteTank
  repeat' split
  all_goals first
    | exact h
    | exact feedInv_congr rfl rfl rfl h
    | exact feedInv_congr rfl rfl rfl (feedInv_changeState_nonfeed _ _ _ (by decide) h)

theorem feedInv_promoteReadyTanks (cfg : Cfg) (w : ℚ) {s : Sim} (h : FeedInv s) :
    FeedInv (promoteReadyTanks cfg w s) := by
  unfold promoteReadyTanks
  exact foldl_pres FeedInv (promoteTank cfg w) _
    (fun b a _ hb => feedInv_promoteTank cfg w a hb) s h

theorem feedInv_initSim (cfg : Cfg) : FeedInv (initSim cfg) := by
  have hbase : ∀ (u : Sim), u.stateHistory = [] → u.active = 0 →
      (∀ x, ¬ u.state x = FEEDING) → FeedInv u := by
    intro u h1 h2 h3
    refine ⟨fun x hx => absurd hx (h3 x), ?_, ?_⟩
    · rw [h1, h2, if_neg (show ¬ ((0 : ℕ) ≠ 0 ∧ u.state 0 = FEEDING) from by
        rintro ⟨hz, -⟩; exact hz rfl)]
      rfl
    · rw [h1]
      trivial
  have main : ∀ (u : Sim), (FeedInv u ∧ ∀ x, ¬ u.state x = FEEDING) →
      FeedInv (logEvent 0 "CONFIG" none
        (let s1 :=
          if 1 ∈ cfg.tankIds ∧ u.state 1 = READY then
            let a1 := { u with active := 1 }
            let a2 := changeState 1 FEEDING 0 a1
            let a3 := { a2 with bbl := Function.update a2.bbl 1 (min (a2.bbl 1) cfg.usable) }
            let a4 := { a3 with
              feedStartVolume := Function.update a3.feedStartVolume 1 (a3.bbl 1) }
            { a4 with tankFeedStartTime := Function.update a4.tankFeedStartTime 1 (some 0) }
          else { u with active := 0 };
         let s2 := logEvent 0 "SIM_START" none s1;
         if s2.active ≠ 0 then logEvent 0 "FEED_START" (some s2.active) s2 else s2)) := by
    rintro u ⟨hu, hnf⟩
    lift_lets
    extract_lets a1 a2 a3 a4 s1 s2
    have ha1 : FeedInv a1 := feedInv_set_active 1 hnf hu
    have ha2 : FeedInv a2 := feedInv_changeState_feed 0 1 rfl one_ne_zero hnf ha1
    have hs1 : FeedInv s1 := by
      unfold_let s1
      split
      · exact feedInv_congr rfl rfl rfl ha2
      · exact feedInv_set_active 0 hnf hu
    have hs2 : FeedInv s2 := feedInv_congr rfl rfl rfl hs1
    split
    · exact feedInv_congr rfl rfl rfl hs2
    · exact feedInv_congr rfl rfl rfl hs2
  unfold initSim
  apply main
  refine foldl_pres (fun u : Sim => FeedInv u ∧ ∀ x, ¬ u.state x = FEEDING) _ _ ?_ _ ?_
  · intro b a _ hb
    constructor
    · dsimp only
      split
      · exact feedInv_congr rfl rfl rfl hb.1
      · exact hb.1
    · intro x hx
      refine hb.2 x ?_
      revert hx
      dsimp only
      split
      · exact fun hx => hx
      · exact fun hx => hx
  · constructor
    · refine hbase _ rfl rfl ?_
      intro x hx
      dsimp only at hx
      split_ifs at hx <;> exact absurd hx (by decide)
    · intro x hx
      dsimp only at hx
      split_ifs at hx <;> exact absurd hx (by decide)

theorem feedInv_scheduleCargos (cfg : Cfg) (w : ℚ) {s : Sim} (h : FeedInv s) :
    FeedInv (scheduleCargos cfg w s) :=
  feedInv_scheduleBerth cfg w 2 (feedInv_scheduleBerth cfg w 1 h)

theorem feedInv_applyPhase (cfg : Cfg) {s : Sim} (p : Phase) (h : FeedInv s) :
    FeedInv (applyPhase cfg s p) := by
  cases p with
  | promote t => exact feedInv_promoteReadyTanks cfg t h
  | finish t => exact feedInv_maybeFinishFill cfg t h
  | ensure t => exact feedInv_ensureFeeding cfg t h
  | start t => exact feedInv_maybeStartFill cfg t h
  | consume t1 t2 => exact feedInv_consumeHour cfg t1 t2 h
  | schedule t => exact feedInv_scheduleCargos cfg t h
  | resetDaily => exact feedInv_congr rfl rfl rfl h
  | logRow t code => exact feedInv_congr rfl rfl rfl h

theorem feedInv_reach (cfg : Cfg) (phases : List Phase) : FeedInv (reach cfg phases) := by
  unfold reach
  exact foldl_pres FeedInv (applyPhase cfg) phases
    (fun b a _ hb => feedInv_applyPhase cfg a hb) _ (feedInv_initSim cfg)

theorem count_le_one_of_all_eq {l : List ℕ} (hnd : l.Nodup) (p : ℕ → Bool) (a : ℕ)
    (hall : ∀ x ∈ l, p x = true → x = a) : (l.filter p).length ≤ 1 := by
  induction l with
  | nil => simp
  | cons b t ih =>
    rw [List.filter_cons]
    by_cases hb : p b = true
    · rw [if_pos hb]
      have hba : b = a := hall b (List.mem_cons_self b t) hb
      have ht : t.filter p = [] := by
        cases hf : t.filter p with
        | nil => rfl
        | cons y ys =>
          exfalso
          have hy : y ∈ t.filter p := by rw [hf]; exact List.mem_cons_self y ys
          obtain ⟨hyt, hpy⟩ := List.mem_filter.mp hy
          have : y = a := hall y (List.mem_cons_of_mem b hyt) hpy
          rw [this, ← hba] at hyt
          exact (List.nodup_cons.mp hnd).1 hyt
      rw [ht]
      simp
    · rw [if_neg hb]
      exact ih (List.Nodup.of_cons hnd)
        (fun x hx hpx => hall x (List.mem_cons_of_mem b hx) hpx)

/-- C1: at every reachable simulator state — after any sequence of the
driver's phases from initialization — at most one tank is in FEEDING: the
FEEDING count over the simulated tanks is at most 1, every FEEDING tank is
the active tank, and the state history is well-fed, meaning a tank is moved
to FEEDING only while no tank is feeding (the previous feeder was first
transitioned out of FEEDING). -/
theorem claim_C1_at_most_one_feeding (cfg : Cfg) (phases : List Phase) :
    countState cfg (reach cfg phases) FEEDING ≤ 1 ∧
    (∀ t, (reach cfg phases).state t = FEEDING → t = (reach cfg phases).active) ∧
    WellFed none (reach cfg phases).stateHistory := by
  have h := feedInv_reach cfg phases
  refine ⟨?_, fun t ht => (h.1 t ht).1, h.2.2⟩
  unfold countState
  apply count_le_one_of_all_eq (tankIds_nodup cfg) _ ((reach cfg phases).active)
  intro x _ hpx
  exact (h.1 x (by exact beq_iff_eq.mp hpx)).1

/-! ## The volume bounds invariant (C4) -/

theorem volInv_congr {cfg : Cfg} {s s' : Sim} (h1 : s'.bbl = s.bbl)
    (h2 : s'.activeFills = s.activeFills) (h3 : s'.active = s.active)
    (h : VolInv cfg s) : VolInv cfg s' := by
  unfold VolInv at h ⊢
  rw [h1, h2, h3]
  exact h

theorem volInv_update_bbl {cfg : Cfg} {s : Sim} (t : ℕ) (v : ℚ)
    (hv : t ∈ cfg.tankIds → 0 ≤ v ∧ v ≤ cfg.usable) (h : VolInv cfg s) :
    VolInv cfg { s with bbl := Function.update s.bbl t v } := by
  obtain ⟨h1, h2, h3⟩ := h
  refine ⟨?_, h2, h3⟩
  intro x hx
  show 0 ≤ Function.update s.bbl t v x ∧ Function.update s.bbl t v x ≤ cfg.usable
  by_cases hxt : x = t
  · subst hxt
    rw [Function.update_same]
    exact hv hx
  · rw [Function.update_noteq hxt]
    exact h1 x hx

theorem volInv_update_bbl2 {cfg : Cfg} {s : Sim} (t : ℕ) (v : ℚ) (d : ℕ → ℚ)
    (hv : t ∈ cfg.tankIds → 0 ≤ v ∧ v ≤ cfg.usable) (h : VolInv cfg s) :
    VolInv cfg { s with bbl := Function.update s.bbl t v, dailyConsumption := d } := by
  obtain ⟨h1, h2, h3⟩ := h
  refine ⟨?_, h2, h3⟩
  intro x hx
  show 0 ≤ Function.update s.bbl t v x ∧ Function.update s.bbl t v x ≤ cfg.usable
  by_cases hxt : x = t
  · subst hxt
    rw [Function.update_same]
    exact hv hx
  · rw [Function.update_noteq hxt]
    exact h1 x hx

theorem volInv_set_active {cfg : Cfg} {s : Sim} (a : ℕ)
    (ha : a = 0 ∨ a ∈ cfg.tankIds) (h : VolInv cfg s) :
    VolInv cfg { s with active := a } := by
  obtain ⟨h1, h2, -⟩ := h
  exact ⟨h1, h2, ha⟩

theorem volInv_add_fill {cfg : Cfg} {s : Sim} (entry : String × ℕ × ℚ × ℚ × ℚ)
    (hv : 0 ≤ entry.2.2.2.2) (h : VolInv cfg s) :
    VolInv cfg { s with activeFills := s.activeFills ++ [entry] } := by
  obtain ⟨h1, h2, h3⟩ := h
  refine ⟨h1, ?_, h3⟩
  intro e he
  rcases List.mem_append.mp he with he | he
  · exact h2 e he
  · rw [List.mem_singleton] at he
    subst he
    exact hv

theorem volInv_filter_fills {cfg : Cfg} {s : Sim} (p : String × ℕ × ℚ × ℚ × ℚ → Bool)
    (h : VolInv cfg s) :
    VolInv cfg { s with activeFills := s.activeFills.filter p } := by
  obtain ⟨h1, h2, h3⟩ := h
  refine ⟨h1, ?_, h3⟩
  intro e he
  exact h2 e (List.mem_of_mem_filter he)

theorem volInv_scheduleBerth (cfg : Cfg) (w : ℚ) (b : ℕ) {s : Sim} (h : VolInv cfg s) :
    VolInv cfg (scheduleBerthStandard cfg w s b) := by
  unfold scheduleBerthStandard popRand popChoice
  lift_lets
  extract_lets berth gs gap s0 readyCount cont availableTypes
  by_cases hfree : berth.currentCargo = none ∧ berth.freeAt ≤ w
  · rw [if_pos hfree]
    have hs0 : VolInv cfg s0 := by
      unfold_let s0 gs
      rcases hr : s.rng with _ | ⟨r, rrest⟩
      · simp only [hr]
        exact h
      · simp only [hr]
        exact volInv_congr rfl rfl rfl h
    rcases hcont : cont with _ | ⟨arrival, s1p⟩
    · simp only [hcont]
      exact hs0
    · simp only [hcont]
      have hs' : VolInv cfg s1p := by
        have heq := hcont
        unfold_let cont at heq
        split at heq
        · split at heq
          · rw [Option.some.injEq, Prod.mk.injEq] at heq
            rw [← heq.2]
            exact volInv_congr rfl rfl rfl hs0
          · cases heq
        · split at heq
          · cases heq
          · split at heq
            · rw [Option.some.injEq, Prod.mk.injEq] at heq
              rw [← heq.2]
              exact hs0
            · rw [Option.some.injEq, Prod.mk.injEq] at heq
              rw [← heq.2]
              exact hs0
      split
      · exact hs'
      · rcases hrc : s1p.rngChoice with _ | ⟨x, rcrest⟩
        · simp only [hrc]
          exact volInv_congr rfl rfl rfl hs'
        · simp only [hrc]
          exact volInv_congr rfl rfl rfl hs'
  · rw [if_neg hfree]
    exact h

theorem volInv_scheduleCargos (cfg : Cfg) (w : ℚ) {s : Sim} (h : VolInv cfg s) :
    VolInv cfg (scheduleCargos cfg w s) :=
  volInv_scheduleBerth cfg w 2 (volInv_scheduleBerth cfg w 1 h)

theorem volInv_startFillForCargo (cfg : Cfg) (w : ℚ) (v : String) (hcfg : 0 ≤ cfg.usable)
    {s : Sim} (h : VolInv cfg s) : VolInv cfg (startFillForCargo cfg w s v) := by
  unfold startFillForCargo
  split
  · exact h
  next cargo hfind =>
    split
    · exact h
    next hrem =>
      rw [not_not] at hrem
      split
      · exact h
      · split
        · exact h
        · split
          · exact h
          next tid fromInitial heq =>
            lift_lets
            extract_lets sA vol sB et sC es sD
            have hvol : (0 : ℚ) ≤ vol := by
              have hr1 : (1 : ℚ) < sA.cargoRemainingVolume cargo.vesselName := by
                unfold_let sA
                split
                · exact hrem.1
                · exact hrem.1
              unfold_let vol
              exact le_min (by linarith) hcfg
            have hA : VolInv cfg sA := by
              unfold_let sA
              split
              · exact volInv_congr rfl rfl rfl h
              · exact h
            have hC : VolInv cfg sC :=
              volInv_add_fill _ hvol (volInv_congr rfl rfl rfl hA)
            have hD : VolInv cfg sD := by
              unfold_let sD es
              split
              · exact volInv_congr rfl rfl rfl hC
              · exact volInv_congr rfl rfl rfl hC
            exact volInv_congr rfl rfl rfl hD

theorem volInv_maybeStartFill (cfg : Cfg) (w : ℚ) (hcfg : 0 ≤ cfg.usable) {s : Sim}
    (h : VolInv cfg s) : VolInv cfg (maybeStartFill cfg w s) := by
  unfold maybeStartFill
  exact foldl_pres (VolInv cfg) (startFillForCargo cfg w) _
    (fun b a _ hb => volInv_startFillForCargo cfg w a hcfg hb) s h

theorem volInv_finishOneFill (cfg : Cfg) (w : ℚ) (hcfg : 0 ≤ cfg.usable)
    (acc : Sim × List String) (e : String × ℕ × ℚ × ℚ × ℚ) (hvol : 0 ≤ e.2.2.2.2)
    (h : VolInv cfg acc.1) : VolInv cfg (finishOneFill cfg w acc e).1 := by
  unfold finishOneFill
  lift_lets
  extract_lets s0 fin vn tid et vol nv s14 itf ev s13 s12 s11 se s10 s9 s8 s7 s6 s5 fs s4 fin2 s3 s2 s1 sfin
  split
  · exact h
  · have h14 : VolInv cfg s14 := by
      refine volInv_update_bbl tid (min nv cfg.usable)
        (fun hmem => ⟨?_, min_le_right _ _⟩) h
      exact le_min (add_nonneg (h.1 tid hmem).1 hvol) hcfg
    have h13 : VolInv cfg s13 := by
      unfold_let s13
      split
      · exact volInv_congr rfl rfl rfl h14
      · exact h14
    have h11 : VolInv cfg s11 := volInv_congr rfl rfl rfl h13
    have h8 : VolInv cfg s8 := volInv_congr rfl rfl rfl h13
    have h7 : VolInv cfg s7 := by
      unfold_let s7
      repeat' split
      all_goals first
        | exact volInv_congr rfl rfl rfl h11
        | exact volInv_congr rfl rfl rfl h8
    have h5 : VolInv cfg s5 := volInv_congr rfl rfl rfl h7
    have h4 : VolInv cfg s4 := by
      unfold_let s4 fs
      split
      · exact volInv_congr rfl rfl rfl h5
      · exact h5
    have h3 : VolInv cfg s3 := volInv_filter_fills _ h4
    have h1 : VolInv cfg s1 := by
      unfold_let s1
      split
      · exact volInv_congr rfl rfl rfl h3
      · exact volInv_congr rfl rfl rfl h3
    have hfin : VolInv cfg sfin := by
      unfold_let sfin
      split
      · exact volInv_maybeStartFill cfg _ hcfg h1
      · exact h3
    exact hfin

theorem volInv_maybeFinishFill (cfg : Cfg) (w : ℚ) (hcfg : 0 ≤ cfg.usable) {s : Sim}
    (h : VolInv cfg s) : VolInv cfg (maybeFinishFill cfg w s) := by
  unfold maybeFinishFill
  have hfold : VolInv cfg ((s.activeFills.foldl (finishOneFill cfg w) (s, [])).1) :=
    foldl_pres (fun x : Sim × List String => VolInv cfg x.1) (finishOneFill cfg w) _
      (fun b a ha hb => volInv_finishOneFill cfg w hcfg b a (h.2.1 a ha) hb) (s, []) h
  refine foldl_pres (VolInv cfg) _ _ ?_ _ hfold
  intro b a _ hb
  dsimp only
  split
  · exact hb
  · apply volInv_scheduleBerth
    apply volInv_scheduleBerth
    exact volInv_congr rfl rfl rfl hb

theorem volInv_ensureFeeding (cfg : Cfg) (w : ℚ) (hcfg : 0 ≤ cfg.usable) {s : Sim}
    (h : VolInv cfg s) : VolInv cfg (ensureFeeding cfg w s) := by
  unfold ensureFeeding
  split
  · exact h
  · split
    next nxt heq =>
      obtain ⟨hmem, -⟩ := findNextReady_some heq
      lift_lets
      extract_lets wh s1 s2 s3 s4 s5 sR s6
      have h1 : VolInv cfg s1 := volInv_set_active nxt (Or.inr hmem) h
      have h3 : VolInv cfg s3 :=
        volInv_update_bbl nxt (min (s2.bbl nxt) cfg.usable)
          (fun _ => ⟨le_min (h.1 nxt hmem).1 hcfg, min_le_right _ _⟩)
          (volInv_congr rfl rfl rfl h1)
      have h5 : VolInv cfg s5 := volInv_congr rfl rfl rfl h3
      have h6 : VolInv cfg s6 := by
        unfold_let s6
        split
        · exact volInv_congr rfl rfl rfl h5
        · exact h5
      exact volInv_congr rfl rfl rfl h6
    next heq =>
      split
      · exact volInv_congr rfl rfl rfl h
      · exact h

theorem volInv_consumeHour (cfg : Cfg) (t1 t2 : ℚ) (ht : t1 ≤ t2) (hcfg : 0 ≤ cfg.usable)
    {s : Sim} (h : VolInv cfg s) : VolInv cfg (consumeHour cfg t1 t2 s).2 := by
  unfold consumeHour
  split
  · exact h
  next hcond =>
    split
    · exact h
    next hrate =>
      have hrate' : 0 < cfg.rateHour := lt_of_not_le hrate
      lift_lets
      extract_lets avail tidE e1 e2 tte hlen takeL sL tE takeE c1 c2 c3 c4 c5 c6 c7 wh rem n0 nh
      by_cases hc3 : avail ≤ 0
      · rw [if_pos hc3]
        exact volInv_congr rfl rfl rfl h
      · rw [if_neg hc3]
        by_cases hc4 : hlen < tte
        · rw [if_pos hc4]
          have htake : 0 ≤ takeL := by
            unfold_let takeL hlen
            exact mul_nonneg (le_of_lt hrate') (by linarith)
          refine volInv_update_bbl2 s.active (max 0 (s.bbl s.active - takeL)) _
            (fun hm => ⟨le_max_left _ _, ?_⟩) h
          refine max_le hcfg ?_
          have h2 := (h.1 s.active hm).2
          linarith
        · rw [if_neg hc4]
          have hc1 : VolInv cfg c1 :=
            volInv_update_bbl2 tidE 0 _ (fun _ => ⟨le_refl 0, hcfg⟩) h
          have hc7 : VolInv cfg c7 := by
            unfold_let c7
            split
            · exact volInv_congr rfl rfl rfl hc1
            · exact volInv_congr rfl rfl rfl hc1
          split
          next nxt heq =>
            obtain ⟨hmem, -⟩ := findNextReady_some heq
            lift_lets
            extract_lets d1 d2 d3 d4 dR d5 d6 d7 add dS
            have hd1 : VolInv cfg d1 := volInv_set_active nxt (Or.inr hmem) hc7
            have hd2 : VolInv cfg d2 :=
              volInv_update_bbl nxt (min (d1.bbl nxt) cfg.usable)
                (fun _ => ⟨le_min (hd1.1 nxt hmem).1 hcfg, min_le_right _ _⟩) hd1
            have hd5 : VolInv cfg d5 := by
              unfold_let d5
              split
              · exact volInv_congr rfl rfl rfl hd2
              · exact volInv_congr rfl rfl rfl hd2
            have hd7 : VolInv cfg d7 := volInv_congr rfl rfl rfl hd5
            split
            next hdrain =>
              have hadd : 0 ≤ add := by
                unfold_let add
                exact le_min (mul_nonneg (le_of_lt hrate') (le_of_lt hdrain.1))
                  (le_of_lt hdrain.2)
              refine volInv_update_bbl2 nxt (d7.bbl nxt - add) _
                (fun _ => ⟨sub_nonneg.mpr (min_le_right _ _), ?_⟩) hd7
              have h2 := (hd7.1 nxt hmem).2
              linarith
            · exact volInv_congr rfl rfl rfl hd7
          next heq =>
            have hn0 : VolInv cfg n0 := volInv_set_active 0 (Or.inl rfl) hc7
            split
            · exact volInv_congr rfl rfl rfl hn0
            · exact hn0

theorem volInv_promoteTank (cfg : Cfg) (w : ℚ) (hcfg : 0 ≤ cfg.usable) {s : Sim} (i : ℕ)
    (h : VolInv cfg s) : VolInv cfg (promoteTank cfg w s i) := by
  unfold promoteTank
  repeat' split
  all_goals first
    | exact h
    | exact volInv_congr rfl rfl rfl h
    | exact volInv_congr rfl rfl rfl
        (volInv_update_bbl i cfg.usable (fun _ => ⟨hcfg, le_refl _⟩) h)

theorem volInv_promoteReadyTanks (cfg : Cfg) (w : ℚ) (hcfg : 0 ≤ cfg.usable) {s : Sim}
    (h : VolInv cfg s) : VolInv cfg (promoteReadyTanks cfg w s) := by
  unfold promoteReadyTanks
  exact foldl_pres (VolInv cfg) (promoteTank cfg w) _
    (fun b a _ hb => volInv_promoteTank cfg w hcfg a hb) s h

theorem volInv_initSim (cfg : Cfg) (hcfg : CfgOK cfg) : VolInv cfg (initSim cfg) := by
  obtain ⟨husable, hunus, hcap⟩ := hcfg
  have main : ∀ (u : Sim), VolInv cfg u →
      VolInv cfg (logEvent 0 "CONFIG" none
        (let s1 :=
          if 1 ∈ cfg.tankIds ∧ u.state 1 = READY then
            let a1 := { u with active := 1 }
            let a2 := changeState 1 FEEDING 0 a1
            let a3 := { a2 with bbl := Function.update a2.bbl 1 (min (a2.bbl 1) cfg.usable) }
            let a4 := { a3 with
              feedStartVolume := Function.update a3.feedStartVolume 1 (a3.bbl 1) }
            { a4 with tankFeedStartTime := Function.update a4.tankFeedStartTime 1 (some 0) }
          else { u with active := 0 };
         let s2 := logEvent 0 "SIM_START" none s1;
         if s2.active ≠ 0 then logEvent 0 "FEED_START" (some s2.active) s2 else s2)) := by
    intro u hu
    lift_lets
    extract_lets a1 a2 a3 a4 s1 s2
    have hs1 : VolInv cfg s1 := by
      unfold_let s1
      split
      next hc =>
        have ha1 : VolInv cfg a1 := volInv_set_active 1 (Or.inr hc.1) hu
        have ha3 : VolInv cfg a3 :=
          volInv_update_bbl 1 (min (a2.bbl 1) cfg.usable)
            (fun hm => ⟨le_min (hu.1 1 hm).1 husable, min_le_right _ _⟩)
            (volInv_congr rfl rfl rfl ha1)
        exact volInv_congr rfl rfl rfl ha3
      · exact volInv_set_active 0 (Or.inl rfl) hu
    have hs2 : VolInv cfg s2 := volInv_congr rfl rfl rfl hs1
    split
    · exact volInv_congr rfl rfl rfl hs2
    · exact volInv_congr rfl rfl rfl hs2
  unfold initSim
  apply main
  refine foldl_pres (fun u : Sim => VolInv cfg u) _ _ ?_ _ ?_
  · intro b a _ hb
    dsimp only
    split
    · exact volInv_congr rfl rfl rfl hb
    · exact hb
  · refine ⟨?_, ?_, Or.inl rfl⟩
    · intro t ht
      dsimp only
      rw [if_pos ht]
      refine ⟨le_max_left _ _, max_le husable ?_⟩
      cases hlv : cfg.initialLevels t with
      | none =>
        simp only [hlv, Option.getD_none]
        linarith
      | some v =>
        simp only [hlv, Option.getD_some]
        exact hcap t v hlv
    · intro e he
      exact absurd he (List.not_mem_nil e)

theorem volInv_applyPhase (cfg : Cfg) (hcfg : CfgOK cfg) {s : Sim} (p : Phase)
    (hp : PhaseOK p) (h : VolInv cfg s) : VolInv cfg (applyPhase cfg s p) := by
  cases p with
  | promote t => exact volInv_promoteReadyTanks cfg t hcfg.1 h
  | finish t => exact volInv_maybeFinishFill cfg t hcfg.1 h
  | ensure t => exact volInv_ensureFeeding cfg t hcfg.1 h
  | start t => exact volInv_maybeStartFill cfg t hcfg.1 h
  | consume t1 t2 => exact volInv_consumeHour cfg t1 t2 hp hcfg.1 h
  | schedule t => exact volInv_scheduleCargos cfg t h
  | resetDaily => exact volInv_congr rfl rfl rfl h
  | logRow t code => exact volInv_congr rfl rfl rfl h

theorem volInv_reach (cfg : Cfg) (hcfg : CfgOK cfg) (phases : List Phase)
    (hph : ∀ p ∈ phases, PhaseOK p) : VolInv cfg (reach cfg phases) := by
  unfold reach
  exact foldl_pres (VolInv cfg) (applyPhase cfg) phases
    (fun b a ha hb => volInv_applyPhase cfg hcfg a (hph a ha) hb) _
    (volInv_initSim cfg hcfg)

/-- C4: for every simulated tank and every reachable simulator state — any
sequence of driver phases whose consumption steps run forward in time,
started from a configuration with nonnegative usable capacity and unusable
floor and initial levels within gross capacity — the stored usable volume
satisfies 0 ≤ volume ≤ usable capacity: every draw and every fill addition
is clamped so no operation drives a tank negative or above its usable
capacity. -/
theorem claim_C4_volume_bounds (cfg : Cfg) (phases : List Phase) (hcfg : CfgOK cfg)
    (hph : ∀ p ∈ phases, PhaseOK p) :
    ∀ t ∈ cfg.tankIds, 0 ≤ (reach cfg phases).bbl t ∧
      (reach cfg phases).bbl t ≤ cfg.usable :=
  (volInv_reach cfg hcfg phases hph).1

theorem claim_C4_witness :
    CfgOK scenarioACfg ∧
    (∀ p ∈ [Phase.consume 0 24], PhaseOK p) ∧
    (∀ t ∈ scenarioACfg.tankIds,
      0 ≤ (reach scenarioACfg [Phase.consume 0 24]).bbl t ∧
        (reach scenarioACfg [Phase.consume 0 24]).bbl t ≤ scenarioACfg.usable) :=
  ⟨⟨by norm_num [scenarioACfg], by norm_num [Cfg.unusable, scenarioACfg],
    fun i v hv => by simp [scenarioACfg] at hv⟩,
   fun p hp => by
     rw [List.mem_singleton] at hp
     subst hp
     show (0 : ℚ) ≤ 24
     norm_num,
   claim_C4_volume_bounds scenarioACfg [Phase.consume 0 24]
     ⟨by norm_num [scenarioACfg], by norm_num [Cfg.unusable, scenarioACfg],
      fun i v hv => by simp [scenarioACfg] at hv⟩
     (fun p hp => by
       rw [List.mem_singleton] at hp
       subst hp
       show (0 : ℚ) ≤ 24
       norm_num)⟩

/-! ## The promotion pass (C9) -/

theorem filter_len_zero {α : Type} (p : α → Bool) (l : List α)
    (h : ∀ a ∈ l, ¬ p a = true) : (l.filter p).length = 0 := by
  induction l with
  | nil => rfl
  | cons x t ih =>
    rw [List.filter_cons, if_neg (h x (List.mem_cons_self x t))]
    exact ih (fun a ha => h a (List.mem_cons_of_mem x ha))

theorem promoteTank_hist (cfg : Cfg) (w : ℚ) (s : Sim) (i : ℕ) :
    ∃ l, (promoteTank cfg w s i).stateHistory = s.stateHistory ++ l ∧
      l.length ≤ 1 ∧ ∀ e ∈ l, e.tid = i := by
  unfold promoteTank
  repeat' split
  all_goals first
    | exact ⟨[], (List.append_nil _).symm, by simp, by simp⟩
    | exact ⟨[{ t := (s.settleEndAt i).getD w, tid := i, st := LAB }], rfl,
        by simp, fun e he => by rw [List.mem_singleton] at he; subst he; rfl⟩
    | exact ⟨[{ t := (s.readyAt i).getD w, tid := i, st := READY }], rfl,
        by simp, fun e he => by rw [List.mem_singleton] at he; subst he; rfl⟩

theorem promoteFold_hist (cfg : Cfg) (w : ℚ) :
    ∀ (L : List ℕ) (s : Sim), ∃ l, (L.foldl (promoteTank cfg w) s).stateHistory
      = s.stateHistory ++ l ∧ (∀ e ∈ l, e.tid ∈ L) ∧
      (L.Nodup → ∀ i, (l.filter (fun e => e.tid == i)).length ≤ 1) := by
  intro L
  induction L with
  | nil =>
    intro s
    exact ⟨[], (List.append_nil _).symm, by simp, by simp⟩
  | cons j rest ih =>
    intro s
    obtain ⟨l1, h1, hlen1, htid1⟩ := promoteTank_hist cfg w s j
    obtain ⟨l2, g1, g2, g3⟩ := ih (promoteTank cfg w s j)
    refine ⟨l1 ++ l2, ?_, ?_, ?_⟩
    · rw [List.foldl_cons, g1, h1, List.append_assoc]
    · intro e he
      rcases List.mem_append.mp he with he | he
      · rw [htid1 e he]
        exact List.mem_cons_self j rest
      · exact List.mem_cons_of_mem j (g2 e he)
    · intro hnd i
      have hjnotin := (List.nodup_cons.mp hnd).1
      have hnd2 := (List.nodup_cons.mp hnd).2
      rw [List.filter_append, List.length_append]
      by_cases hij : i = j
      · subst hij
        have hl2 : (l2.filter (fun e => e.tid == i)).length = 0 := by
          refine filter_len_zero _ _ ?_
          intro e he hp
          rw [beq_iff_eq] at hp
          exact hjnotin (hp ▸ g2 e he)
        have hl1 : (l1.filter (fun e => e.tid == i)).length ≤ 1 :=
          le_trans (l1.length_filter_le _) hlen1
        omega
      · have hl1 : (l1.filter (fun e => e.tid == i)).length = 0 := by
          refine filter_len_zero _ _ ?_
          intro e he hp
          rw [beq_iff_eq] at hp
          exact hij (hp.symm.trans (htid1 e he))
        have hl2 := g3 hnd2 i
        omega

/-- C9: in one invocation of the promotion pass each tank is promoted at
most once: the per-tank check appends at most one state transition; the
whole pass appends at most one transition per tank id; a SETTLING tank
whose settle timer has elapsed moves to LAB when a lab hold is configured
and its lab timer has elapsed, while with no lab hold and an elapsed ready
timer it moves directly to READY with its volume restored to full usable
capacity and its cycle counter incremented by exactly one; a LAB tank with
an elapsed ready timer moves to READY with the same restoration; the
SETTLING and LAB checks sit on one if/elif chain, so no tank goes
SETTLING→LAB→READY in a single evaluation. -/
theorem claim_C9_promotion_once (cfg : Cfg) (w : ℚ) (s : Sim) (i : ℕ) :
    (∃ l, (promoteTank cfg w s i).stateHistory = s.stateHistory ++ l ∧
      l.length ≤ 1 ∧ ∀ e ∈ l, e.tid = i) ∧
    (∃ l, (promoteReadyTanks cfg w s).stateHistory = s.stateHistory ++ l ∧
      ∀ t, (l.filter (fun e => e.tid == t)).length ≤ 1) ∧
    (s.state i = SETTLING → optElapsed w (s.settleEndAt i) = true →
      0 < cfg.labHours → optElapsed w (s.labStartAt i) = true →
      (promoteTank cfg w s i).state i = LAB) ∧
    (s.state i = SETTLING → optElapsed w (s.settleEndAt i) = true →
      cfg.labHours ≤ 0 → optElapsed w (s.readyAt i) = true →
      (promoteTank cfg w s i).state i = READY ∧
      (promoteTank cfg w s i).bbl i = cfg.usable ∧
      (promoteTank cfg w s i).tankCycleCounter i = s.tankCycleCounter i + 1) ∧
    (s.state i = LAB → optElapsed w (s.readyAt i) = true →
      (promoteTank cfg w s i).state i = READY ∧
      (promoteTank cfg w s i).bbl i = cfg.usable ∧
      (promoteTank cfg w s i).tankCycleCounter i = s.tankCycleCounter i + 1) := by
  refine ⟨promoteTank_hist cfg w s i, ?_, ?_, ?_, ?_⟩
  · obtain ⟨l, hl, -, hcount⟩ := promoteFold_hist cfg w cfg.tankIds s
    exact ⟨l, hl, hcount (tankIds_nodup cfg)⟩
  · intro h1 h2 h3 h4
    unfold promoteTank
    rw [if_pos ⟨h1, h2⟩]
    dsimp only
    rw [if_pos ⟨h3, h4⟩]
    exact show Function.update s.state i LAB i = LAB from
      Function.update_same i LAB s.state
  · intro h1 h2 h3 h4
    unfold promoteTank
    rw [if_pos ⟨h1, h2⟩]
    dsimp only
    rw [if_neg (show ¬ (0 < cfg.labHours ∧ optElapsed w (s.labStartAt i) = true) from
      fun hc => absurd h3 (not_le.mpr hc.1)), if_pos h3, if_pos h4]
    refine ⟨?_, ?_, ?_⟩
    · exact show Function.update s.state i READY i = READY from
        Function.update_same i READY s.state
    · exact show Function.update s.bbl i cfg.usable i = cfg.usable from
        Function.update_same i cfg.usable s.bbl
    · exact show Function.update s.tankCycleCounter i (s.tankCycleCounter i + 1) i
          = s.tankCycleCounter i + 1 from
        Function.update_same i (s.tankCycleCounter i + 1) s.tankCycleCounter
  · intro h1 h2
    unfold promoteTank
    rw [if_neg (show ¬ (s.state i = SETTLING ∧ optElapsed w (s.settleEndAt i) = true) from
      fun hc => by rw [h1] at hc; exact absurd hc.1 (by decide))]
    rw [if_pos ⟨h1, h2⟩]
    refine ⟨?_, ?_, ?_⟩
    · exact show Function.update s.state i READY i = READY from
        Function.update_same i READY s.state
    · exact show Function.update s.bbl i cfg.usable i = cfg.usable from
        Function.update_same i cfg.usable s.bbl
    · exact show Function.update s.tankCycleCounter i (s.tankCycleCounter i + 1) i
          = s.tankCycleCounter i + 1 from
        Function.update_same i (s.tankCycleCounter i + 1) s.tankCycleCounter


/-! ## Fill completion (C3) -/

theorem startFillTankPick_state (cfg : Cfg) (now : ℚ) (s : Sim) (tid : ℕ) (b : Bool)
    (h : startFillTankPick cfg now s = some (tid, b)) :
    s.state tid = EMPTY ∨ s.state tid = SUSPENDED ∨ s.state tid = IDLE := by
  unfold startFillTankPick at h
  split at h
  next i hf =>
    injection h with h
    rw [Prod.mk.injEq] at h
    obtain ⟨rfl, -⟩ := h
    have hp := List.find?_some hf
    simp only [Bool.and_eq_true, Bool.or_eq_true, beq_iff_eq] at hp
    tauto
  next =>
    split at h
    next i hf =>
      injection h with h
      rw [Prod.mk.injEq] at h
      obtain ⟨rfl, -⟩ := h
      have hp := List.find?_some hf
      simp only [Bool.and_eq_true, Bool.or_eq_true, beq_iff_eq] at hp
      tauto
    next => exact Option.noConfusion h

/-- The frame of Simulator._maybe_start_fill: the per-cargo fill starter
never touches tank volumes, timers or cargo remaining volumes, only appends
history, and leaves every tank that is not fill-eligible in its state. -/
def FramePres (s x : Sim) : Prop :=
  x.bbl = s.bbl ∧ x.settleEndAt = s.settleEndAt ∧ x.labStartAt = s.labStartAt ∧
  x.readyAt = s.readyAt ∧ x.readyForFillAt = s.readyForFillAt ∧
  x.cargoRemainingVolume = s.cargoRemainingVolume ∧
  (∃ l, x.stateHistory = s.stateHistory ++ l) ∧
  (∀ i, s.state i = SETTLING → x.state i = SETTLING)

theorem framePres_refl (s : Sim) : FramePres s s :=
  ⟨rfl, rfl, rfl, rfl, rfl, rfl, ⟨[], (List.append_nil _).symm⟩, fun _ h => h⟩

theorem framePres_trans {s x y : Sim} (h1 : FramePres s x) (h2 : FramePres x y) :
    FramePres s y := by
  obtain ⟨a1, a2, a3, a4, a5, a6, ⟨l1, a7⟩, a8⟩ := h1
  obtain ⟨b1, b2, b3, b4, b5, b6, ⟨l2, b7⟩, b8⟩ := h2
  exact ⟨b1.trans a1, b2.trans a2, b3.trans a3, b4.trans a4, b5.trans a5, b6.trans a6,
    ⟨l1 ++ l2, by rw [b7, a7, List.append_assoc]⟩, fun i h => b8 i (a8 i h)⟩

theorem startFill_framePres (cfg : Cfg) (w : ℚ) (vn : String) (s : Sim) :
    FramePres s (startFillForCargo cfg w s vn) := by
  unfold startFillForCargo
  split
  · exact framePres_refl s
  next cargo hfind =>
    split
    · exact framePres_refl s
    · split
      · exact framePres_refl s
      · split
        · exact framePres_refl s
        · split
          · exact framePres_refl s
          next tid fromInitial heq =>
            have hne : ∀ i, s.state i = SETTLING → i ≠ tid := by
              intro i hi hcontra
              subst hcontra
              rcases startFillTankPick_state cfg w s i fromInitial heq with h | h | h
              all_goals rw [hi] at h; cases h
            cases fromInitial
            case false =>
              lift_lets
              extract_lets sA vol sB et sC es sD
              have hes : es.2 = sC ∨
                  es.2 = { sC with tankFilledFirst := tid :: sC.tankFilledFirst } := by
                unfold_let es
                split
                · exact Or.inl rfl
                · exact Or.inr rfl
              rcases hes with h | h
              all_goals exact ⟨
                by show es.2.bbl = s.bbl; rw [h]; rfl,
                by show es.2.settleEndAt = s.settleEndAt; rw [h]; rfl,
                by show es.2.labStartAt = s.labStartAt; rw [h]; rfl,
                by show es.2.readyAt = s.readyAt; rw [h]; rfl,
                by show es.2.readyForFillAt = s.readyForFillAt; rw [h]; rfl,
                by show es.2.cargoRemainingVolume = s.cargoRemainingVolume; rw [h]; rfl,
                ⟨[{ t := w, tid := tid, st := FILLING }], by
                  show es.2.stateHistory ++ [{ t := w, tid := tid, st := FILLING }]
                    = s.stateHistory ++ [{ t := w, tid := tid, st := FILLING }]
                  rw [h]
                  rfl⟩,
                fun i hi => by
                  show Function.update es.2.state tid FILLING i = SETTLING
                  rw [Function.update_noteq (hne i hi), h]
                  exact hi⟩
            case true =>
              lift_lets
              extract_lets sA vol sB et sC es sD
              have hes : es.2 = sC ∨
                  es.2 = { sC with tankFilledFirst := tid :: sC.tankFilledFirst } := by
                unfold_let es
                split
                · exact Or.inl rfl
                · exact Or.inr rfl
              rcases hes with h | h
              all_goals exact ⟨
                by show es.2.bbl = s.bbl; rw [h]; rfl,
                by show es.2.settleEndAt = s.settleEndAt; rw [h]; rfl,
                by show es.2.labStartAt = s.labStartAt; rw [h]; rfl,
                by show es.2.readyAt = s.readyAt; rw [h]; rfl,
                by show es.2.readyForFillAt = s.readyForFillAt; rw [h]; rfl,
                by show es.2.cargoRemainingVolume = s.cargoRemainingVolume; rw [h]; rfl,
                ⟨[{ t := w, tid := tid, st := FILLING }], by
                  show es.2.stateHistory ++ [{ t := w, tid := tid, st := FILLING }]
                    = s.stateHistory ++ [{ t := w, tid := tid, st := FILLING }]
                  rw [h]
                  rfl⟩,
                fun i hi => by
                  show Function.update es.2.state tid FILLING i = SETTLING
                  rw [Function.update_noteq (hne i hi), h]
                  exact hi⟩

theorem maybeStartFill_framePres (cfg : Cfg) (w : ℚ) (s : Sim) :
    FramePres s (maybeStartFill cfg w s) := by
  unfold maybeStartFill
  exact foldl_pres (FramePres s) (startFillForCargo cfg w) _
    (fun x a _ hx => framePres_trans hx (startFill_framePres cfg w a x)) s
    (framePres_refl s)

theorem find_map_update (v : String) (f : Cargo → Cargo)
    (hname : ∀ x, (f x).vesselName = x.vesselName) :
    ∀ (l : List Cargo) (c : Cargo),
      l.find? (fun x => x.vesselName == v) = some c →
      (l.map fun x => if x.vesselName == v then f x else x).find?
        (fun x => x.vesselName == v) = some (f c) := by
  intro l
  induction l with
  | nil => intro c h; cases h
  | cons x t ih =>
    intro c h
    by_cases hx : (x.vesselName == v) = true
    · simp only [List.find?_cons, hx] at h
      injection h with h
      subst h
      rw [List.map_cons, if_pos hx]
      simp only [List.find?_cons, hname, hx]
    · have hx2 : (x.vesselName == v) = false := by
        rw [Bool.not_eq_true] at hx; exact hx
      simp only [List.find?_cons, hx2] at h
      rw [List.map_cons, if_neg hx]
      simp only [List.find?_cons, hx2]
      exact ih c h

theorem finishOneFill_spec (cfg : Cfg) (now : ℚ) (s : Sim) (fin0 : List String)
    (v : String) (tid : ℕ) (st0 et vol : ℚ) (cargo : Cargo)
    (hend : et ≤ now)
    (hfind : s.cargos.find? (fun x => x.vesselName == v) = some cargo)
    (r : Sim × List String)
    (hr : r = finishOneFill cfg now (s, fin0) (v, tid, st0, et, vol)) :
    r.1.bbl tid = min (s.bbl tid + vol) cfg.usable ∧
    r.1.cargoRemainingVolume v = s.cargoRemainingVolume v - vol ∧
    (cfg.usable + cfg.unusable - 100 ≤ min (s.bbl tid + vol) cfg.usable + cfg.unusable →
      r.1.settleEndAt tid = some (et + cfg.settleHours) ∧
      (0 < cfg.labHours →
        r.1.labStartAt tid = some (et + cfg.settleHours) ∧
        r.1.readyAt tid = some (et + cfg.settleHours + cfg.labHours)) ∧
      (¬ 0 < cfg.labHours → r.1.readyAt tid = some (et + cfg.settleHours)) ∧
      r.1.state tid = SETTLING ∧
      (∃ l, r.1.stateHistory = s.stateHistory ++
        [{ t := et, tid := tid, st := FILLED }, { t := et, tid := tid, st := SETTLING }] ++ l)) ∧
    (¬ cfg.usable + cfg.unusable - 100 ≤ min (s.bbl tid + vol) cfg.usable + cfg.unusable →
      r.1.readyForFillAt tid = some (et + cfg.tankFillGapHours) ∧
      (∃ l, r.1.stateHistory = s.stateHistory ++
        [{ t := et, tid := tid, st := SUSPENDED }] ++ l)) ∧
    (s.cargoRemainingVolume v - vol ≤ 1 →
      r.2 = fin0 ++ [v] ∧
      ∃ c2, r.1.cargos.find? (fun x => x.vesselName == v) = some c2 ∧
        c2.berth = cargo.berth ∧ c2.dischargeEnd = some et) ∧
    (¬ s.cargoRemainingVolume v - vol ≤ 1 → r.2 = fin0) := by
  subst hr
  unfold finishOneFill
  lift_lets
  extract_lets s0 fin vn t0 e0 v0 nv s14 itf ev s13 s12 s11 se s10 s9 s8 s7 s6 s5 fs s4 fin2 s3 s2 s1 sfin
  split
  next hno => exact absurd hend hno
  next =>
    have h14b : s14.bbl tid = min (s.bbl tid + vol) cfg.usable :=
      Function.update_same tid (min (s.bbl tid + vol) cfg.usable) s.bbl
    have h13b : s13.bbl = s14.bbl := by
      unfold_let s13; split <;> rfl
    have h7b : s7.bbl = s14.bbl := by
      unfold_let s7; split
      · exact h13b
      · split <;> exact h13b
    have h4b : s4.bbl = s14.bbl := by
      unfold_let s4 fs; split <;> exact h7b
    have h1b : s1.bbl = s14.bbl := by
      unfold_let s1; split <;> exact h4b
    have hfinb : sfin.bbl = s14.bbl := by
      unfold_let sfin; split
      · exact ((maybeStartFill_framePres cfg e0 s1).1).trans h1b
      · exact h4b
    have h13m : s13.cargoRemainingVolume = s.cargoRemainingVolume := by
      unfold_let s13; split <;> rfl
    have h7m : s7.cargoRemainingVolume = s.cargoRemainingVolume := by
      unfold_let s7; split
      · exact h13m
      · split <;> exact h13m
    have h5m : s5.cargoRemainingVolume v = s.cargoRemainingVolume v - vol :=
      (Function.update_same v (s6.cargoRemainingVolume v - vol) s6.cargoRemainingVolume).trans
        (congrArg (fun x => x - vol) (congrFun h7m v))
    have h4m : s4.cargoRemainingVolume = s5.cargoRemainingVolume := by
      unfold_let s4 fs; split <;> rfl
    have h1m : s1.cargoRemainingVolume = s5.cargoRemainingVolume := by
      unfold_let s1; split <;> exact h4m
    have hfinm : sfin.cargoRemainingVolume = s5.cargoRemainingVolume := by
      unfold_let sfin; split
      · exact ((maybeStartFill_framePres cfg e0 s1).2.2.2.2.2.1).trans h1m
      · exact h4m
    have h13c : s13.cargos = s.cargos := by
      unfold_let s13; split <;> rfl
    have h7c : s7.cargos = s.cargos := by
      unfold_let s7; split
      · exact h13c
      · split <;> exact h13c
    have hmid3 : s3.settleEndAt = s7.settleEndAt ∧ s3.labStartAt = s7.labStartAt ∧
        s3.readyAt = s7.readyAt ∧ s3.readyForFillAt = s7.readyForFillAt ∧
        s3.state = s7.state ∧ s3.stateHistory = s7.stateHistory := by
      unfold_let s3 s4 fs; split <;> exact ⟨rfl, rfl, rfl, rfl, rfl, rfl⟩
    have hmid1 : s1.settleEndAt = s7.settleEndAt ∧ s1.labStartAt = s7.labStartAt ∧
        s1.readyAt = s7.readyAt ∧ s1.readyForFillAt = s7.readyForFillAt ∧
        s1.state = s7.state ∧ s1.stateHistory = s7.stateHistory := by
      unfold_let s1; split <;> exact hmid3
    have htail : sfin.settleEndAt = s7.settleEndAt ∧ sfin.labStartAt = s7.labStartAt ∧
        sfin.readyAt = s7.readyAt ∧ sfin.readyForFillAt = s7.readyForFillAt ∧
        (∀ i, s7.state i = SETTLING → sfin.state i = SETTLING) ∧
        (∃ l, sfin.stateHistory = s7.stateHistory ++ l) := by
      unfold_let sfin; split
      · obtain ⟨m1, m2, m3, m4, m5, m6⟩ := hmid1
        obtain ⟨f1, f2, f3, f4, f5, f6, ⟨l, f7⟩, f8⟩ := maybeStartFill_framePres cfg e0 s1
        exact ⟨f2.trans m1, f3.trans m2, f4.trans m3, f5.trans m4,
          fun i hi => f8 i (by rw [m5]; exact hi),
          ⟨l, by rw [f7, m6]⟩⟩
      · obtain ⟨m1, m2, m3, m4, m5, m6⟩ := hmid3
        exact ⟨m1, m2, m3, m4, fun i hi => by rw [m5]; exact hi,
          ⟨[], by rw [m6, List.append_nil]⟩⟩
    refine ⟨(congrFun hfinb tid).trans h14b, (congrFun hfinm v).trans h5m, ?_, ?_, ?_, ?_⟩
    · intro hfull
      have hitf : itf = true := decide_eq_true hfull
      have hnn : ¬ ¬ itf = true := not_not_intro hitf
      have h10se : s10.settleEndAt tid = some (et + cfg.settleHours) :=
        Function.update_same tid (some (et + cfg.settleHours)) s12.settleEndAt
      have h7se : s7.settleEndAt tid = some (et + cfg.settleHours) := by
        unfold_let s7; rw [if_neg hnn]; split <;> exact h10se
      have h9st : s9.state tid = SETTLING := by
        show Function.update s10.state tid SETTLING tid = SETTLING
        exact Function.update_same tid SETTLING s10.state
      have h7st : s7.state tid = SETTLING := by
        unfold_let s7; rw [if_neg hnn]; split <;> exact h9st
      have h13h : s13.stateHistory = s.stateHistory ++ [{ t := et, tid := tid, st := FILLED }] :=
        (congrArg Sim.stateHistory (if_pos hitf : s13 = changeState tid FILLED et s14)).trans rfl
      have h9h : s9.stateHistory = s.stateHistory ++
          [{ t := et, tid := tid, st := FILLED }, { t := et, tid := tid, st := SETTLING }] := by
        have e : s9.stateHistory
            = s13.stateHistory ++ [{ t := et, tid := tid, st := SETTLING }] := rfl
        rw [e, h13h]
        exact List.append_assoc s.stateHistory _ _
      have h7h : s7.stateHistory = s.stateHistory ++
          [{ t := et, tid := tid, st := FILLED }, { t := et, tid := tid, st := SETTLING }] := by
        unfold_let s7; rw [if_neg hnn]; split <;> exact h9h
      refine ⟨(congrFun htail.1 tid).trans h7se, ?_, ?_, htail.2.2.2.2.1 tid h7st, ?_⟩
      · intro hlab
        have h7lab : s7.labStartAt tid = some (et + cfg.settleHours) ∧
            s7.readyAt tid = some (et + cfg.settleHours + cfg.labHours) := by
          unfold_let s7
          rw [if_neg hnn, if_pos hlab]
          exact ⟨Function.update_same tid (some (et + cfg.settleHours)) s8.labStartAt,
            Function.update_same tid (some (et + cfg.settleHours + cfg.labHours)) s8.readyAt⟩
        exact ⟨(congrFun htail.2.1 tid).trans h7lab.1,
          (congrFun htail.2.2.1 tid).trans h7lab.2⟩
      · intro hnl
        have h7r : s7.readyAt tid = some (et + cfg.settleHours) := by
          unfold_let s7
          rw [if_neg hnn, if_neg hnl]
          exact Function.update_same tid (some (et + cfg.settleHours)) s8.readyAt
        exact (congrFun htail.2.2.1 tid).trans h7r
      · obtain ⟨l, hl⟩ := htail.2.2.2.2.2
        exact ⟨l, by rw [hl, h7h]⟩
    · intro hnf
      have hitf : itf = false := decide_eq_false hnf
      have hit : ¬ itf = true := by rw [hitf]; exact Bool.false_ne_true
      have h13h0 : s13.stateHistory = s.stateHistory :=
        (congrArg Sim.stateHistory (if_neg hit : s13 = s14)).trans rfl
      have h11h : s11.stateHistory
          = s.stateHistory ++ [{ t := et, tid := tid, st := SUSPENDED }] := by
        have e : s11.stateHistory
            = s13.stateHistory ++ [{ t := et, tid := tid, st := SUSPENDED }] := rfl
        rw [e, h13h0]
      have h7nf : s7.readyForFillAt tid = some (et + cfg.tankFillGapHours) ∧
          s7.stateHistory = s.stateHistory ++ [{ t := et, tid := tid, st := SUSPENDED }] := by
        unfold_let s7
        rw [if_pos hit]
        exact ⟨Function.update_same tid (some (et + cfg.tankFillGapHours)) s11.readyForFillAt,
          h11h⟩
      refine ⟨(congrFun htail.2.2.2.1 tid).trans h7nf.1, ?_⟩
      obtain ⟨l, hl⟩ := htail.2.2.2.2.2
      exact ⟨l, by rw [hl, h7nf.2]⟩
    · intro hd
      have hcond : s5.cargoRemainingVolume v ≤ 1 := by rw [h5m]; exact hd
      have hfs : fs = (updateCargo s5 v (fun c => { c with dischargeEnd := some et }),
          fin0 ++ [v]) := if_pos hcond
      constructor
      · show fs.2 = fin0 ++ [v]
        rw [hfs]
      · have hX : s3.cargoRemainingVolume v ≤ 1 := by
          have e : s3.cargoRemainingVolume v = s.cargoRemainingVolume v - vol :=
            (congrFun h4m v).trans h5m
          rw [e]; exact hd
        have hsfin : sfin = s3 := if_neg (not_lt.mpr hX)
        have h3c : s3.cargos = s5.cargos.map
            (fun c => if c.vesselName == v then
              ({ c with dischargeEnd := some et } : Cargo) else c) := by
          show fs.1.cargos = _
          rw [hfs]
          rfl
        have h5c : s5.cargos = s.cargos.map
            (fun c => if c.vesselName == v then
              ({ c with
                  tanksDone := c.tanksDone + 1,
                  tankFills := c.tankFills
                    ++ [(tid, et - vol / cfg.dischargeRate, et, vol)] } : Cargo)
             else c) := by
          show s7.cargos.map _ = _
          rw [h7c]
        refine ⟨{ ({ cargo with
            tanksDone := cargo.tanksDone + 1,
            tankFills := cargo.tankFills
              ++ [(tid, et - vol / cfg.dischargeRate, et, vol)] } : Cargo) with
            dischargeEnd := some et }, ?_, rfl, rfl⟩
        show sfin.cargos.find? (fun x => x.vesselName == v) = some _
        rw [hsfin, h3c, h5c]
        exact find_map_update v (fun c => { c with dischargeEnd := some et })
          (fun x => rfl) _ _
          (find_map_update v (fun c => { c with
              tanksDone := c.tanksDone + 1,
              tankFills := c.tankFills
                ++ [(tid, et - vol / cfg.dischargeRate, et, vol)] })
            (fun x => rfl) _ _ hfind)
    · intro hnd
      have hcond : ¬ s5.cargoRemainingVolume v ≤ 1 := by rw [h5m]; exact hnd
      have hfs : fs = (s5, fin0) := if_neg hcond
      show fs.2 = fin0
      rw [hfs]

/-- C3: for every fill whose end time has been reached, the per-fill body of
_maybe_finish_fill adds the filled volume to the tank's usable volume capped
at usable capacity; it decides fullness by comparing gross volume (usable
volume plus the fixed unusable floor) against total gross capacity within the
100 bbl tolerance; when full the tank transitions FILLING→FILLED→SETTLING at
the fill end time with settle, lab and ready timers armed, and when partial
it transitions to SUSPENDED with its fill-gap timer armed; the cargo's
remaining volume is decremented by the filled volume, and when the remainder
falls to at most a small epsilon (1 bbl) the cargo is marked
discharge-complete with discharge end equal to the fill end time, and
_maybe_finish_fill frees its berth with free-at set to that time, logs
DISCHARGE_COMPLETE, and re-invokes cargo scheduling. -/
theorem claim_C3_fill_completion (cfg : Cfg) (now : ℚ) (s : Sim) (fin0 : List String)
    (v : String) (tid : ℕ) (st0 et vol : ℚ) (cargo : Cargo)
    (hend : et ≤ now)
    (hfind : s.cargos.find? (fun x => x.vesselName == v) = some cargo)
    (r : Sim × List String)
    (hr : r = finishOneFill cfg now (s, fin0) (v, tid, st0, et, vol)) :
    r.1.bbl tid = min (s.bbl tid + vol) cfg.usable ∧
    r.1.cargoRemainingVolume v = s.cargoRemainingVolume v - vol ∧
    (cfg.usable + cfg.unusable - 100 ≤ min (s.bbl tid + vol) cfg.usable + cfg.unusable →
      r.1.settleEndAt tid = some (et + cfg.settleHours) ∧
      (0 < cfg.labHours →
        r.1.labStartAt tid = some (et + cfg.settleHours) ∧
        r.1.readyAt tid = some (et + cfg.settleHours + cfg.labHours)) ∧
      (¬ 0 < cfg.labHours → r.1.readyAt tid = some (et + cfg.settleHours)) ∧
      r.1.state tid = SETTLING ∧
      (∃ l, r.1.stateHistory = s.stateHistory ++
        [{ t := et, tid := tid, st := FILLED }, { t := et, tid := tid, st := SETTLING }] ++ l)) ∧
    (¬ cfg.usable + cfg.unusable - 100 ≤ min (s.bbl tid + vol) cfg.usable + cfg.unusable →
      r.1.readyForFillAt tid = some (et + cfg.tankFillGapHours) ∧
      (∃ l, r.1.stateHistory = s.stateHistory ++
        [{ t := et, tid := tid, st := SUSPENDED }] ++ l)) ∧
    (s.cargoRemainingVolume v - vol ≤ 1 →
      r.2 = fin0 ++ [v] ∧
      ∃ c2, r.1.cargos.find? (fun x => x.vesselName == v) = some c2 ∧
        c2.berth = cargo.berth ∧ c2.dischargeEnd = some et) ∧
    (¬ s.cargoRemainingVolume v - vol ≤ 1 → r.2 = fin0) ∧
    (s.activeFills = [(v, tid, st0, et, vol)] → s.cargoRemainingVolume v - vol ≤ 1 →
      ∃ s2, maybeFinishFill cfg now s = scheduleCargos cfg et s2 ∧
        (s2.berths cargo.berth).currentCargo = none ∧
        (s2.berths cargo.berth).freeAt = et ∧
        s2.events.getLast? = some { t := et, code := "DISCHARGE_COMPLETE", tank := none }) := by
  obtain ⟨c1, c2, c3, c4, c5, c6⟩ :=
    finishOneFill_spec cfg now s fin0 v tid st0 et vol cargo hend hfind r hr
  refine ⟨c1, c2, c3, c4, c5, c6, ?_⟩
  intro hact hdis
  obtain ⟨-, -, -, -, h5, -⟩ :=
    finishOneFill_spec cfg now s [] v tid st0 et vol cargo hend hfind _ rfl
  obtain ⟨hfin2, cg, hfind2, hberth, hde⟩ := h5 hdis
  refine ⟨logEvent et "DISCHARGE_COMPLETE" none
    { (finishOneFill cfg now (s, []) (v, tid, st0, et, vol)).1 with
        berths := Function.update
          (finishOneFill cfg now (s, []) (v, tid, st0, et, vol)).1.berths cg.berth
          { (finishOneFill cfg now (s, []) (v, tid, st0, et, vol)).1.berths cg.berth with
              currentCargo := none, freeAt := et } }, ?_, ?_, ?_, ?_⟩
  · unfold maybeFinishFill
    rw [hact, List.foldl_cons, List.foldl_nil]
    dsimp only
    rw [hfin2, List.nil_append, List.foldl_cons, List.foldl_nil]
    rw [hfind2]
    dsimp only
    rw [hde]
    rfl
  · rw [← hberth]
    have e := Function.update_same cg.berth
      ({ (finishOneFill cfg now (s, []) (v, tid, st0, et, vol)).1.berths cg.berth with
          currentCargo := none, freeAt := et })
      (finishOneFill cfg now (s, []) (v, tid, st0, et, vol)).1.berths
    exact congrArg Berth.currentCargo e
  · rw [← hberth]
    have e := Function.update_same cg.berth
      ({ (finishOneFill cfg now (s, []) (v, tid, st0, et, vol)).1.berths cg.berth with
          currentCargo := none, freeAt := et })
      (finishOneFill cfg now (s, []) (v, tid, st0, et, vol)).1.berths
    exact congrArg Berth.freeAt e
  · exact List.getLast?_concat _

theorem claim_C3_witness :
    ((10 : ℚ) ≤ 10) ∧
    (simW.cargos.find? (fun x => x.vesselName == "V") = some cargoW) ∧
    (finishOneFill scenarioACfg 10 (simW, []) ("V", 1, 0, 10, 100)).1.cargoRemainingVolume "V"
      = simW.cargoRemainingVolume "V" - 100 :=
  ⟨by norm_num, by rfl,
    (claim_C3_fill_completion scenarioACfg 10 simW [] "V" 1 0 10 100 cargoW
      (by norm_num) (by rfl) _ rfl).2.1⟩

end CrudeSched
